import Mathlib

/- Formal model of the m365-mcp-server-production Cloudflare Worker core:
   the approval-cookie utilities (src/workers-oauth-utils.ts), the OAuth
   handler (src/microsoft-handler.ts), the token bridge and protocol
   router (the main worker module).  JavaScript platform primitives used
   by that code (String.prototype.split, trim, btoa/atob, the hex codec
   written inline in the source, Number.parseInt, JSON, and WebCrypto
   HMAC-SHA-256) are modelled executably so the worker functions can be
   translated line by line and evaluated on concrete inputs. -/

namespace JsPrim

/-- Core of String.prototype.split: one fuel unit per consumed
    character, so length + 1 fuel always suffices. -/
def jsSplitAux : Nat → List Char → List Char → List Char → List (List Char)
  | 0, _, acc, _ => [acc.reverse]
  | fuel + 1, sep, acc, l =>
    if sep.isPrefixOf l ∧ sep ≠ [] then
      acc.reverse :: jsSplitAux fuel sep [] (l.drop sep.length)
    else
      match l with
      | [] => [acc.reverse]
      | c :: rest => jsSplitAux fuel sep (c :: acc) rest

/-- JS String.prototype.split with a non-empty string separator: keeps
    empty fragments, scanning left to right without overlap. -/
def jsSplit (s sep : String) : List String :=
  (jsSplitAux (s.data.length + 1) sep.data [] s.data).map String.mk

/-- JS String.prototype.startsWith. -/
def jsStartsWith (s pre : String) : Bool := pre.data.isPrefixOf s.data

/-- JS String.prototype.substring(start) for an in-range start. -/
def jsSubstringFrom (s : String) (n : Nat) : String :=
  String.mk (s.data.drop n)

/-- JS truthiness of a possibly-undefined string: undefined and the
    empty string are falsy. -/
def truthyStr : Option String → Bool
  | none => false
  | some s => s ≠ ""

/-- UTF-8 encoding of one scalar value (TextEncoder semantics). -/
def utf8Char (c : Char) : List Nat :=
  let n := c.toNat
  if n < 0x80 then [n]
  else if n < 0x800 then [0xC0 + n / 0x40, 0x80 + n % 0x40]
  else if n < 0x10000 then
    [0xE0 + n / 0x1000, 0x80 + n / 0x40 % 0x40, 0x80 + n % 0x40]
  else
    [0xF0 + n / 0x40000, 0x80 + n / 0x1000 % 0x40, 0x80 + n / 0x40 % 0x40,
      0x80 + n % 0x40]

/-- TextEncoder().encode: UTF-8 bytes of a string. -/
def utf8Encode (s : String) : List Nat := (s.data.map utf8Char).flatten

def b64Alphabet : String :=
  "ABCDEFGHIJKLMNOPQRSTUVWXYZabcdefghijklmnopqrstuvwxyz0123456789+/"

def b64Char (n : Nat) : Char := b64Alphabet.data.getD n '?'

def charIndexAux (c : Char) : List Char → Nat → Option Nat
  | [], _ => none
  | x :: xs, i => if x = c then some i else charIndexAux c xs (i + 1)

def b64Value (c : Char) : Option Nat := charIndexAux c b64Alphabet.data 0

/-- btoa on byte values: 3-byte groups become 4 base64 digits, with
    '=' padding for a 1- or 2-byte tail. -/
def btoaBytes : List Nat → String
  | [] => ""
  | [a] => String.mk [b64Char (a / 4), b64Char (a % 4 * 16), '=', '=']
  | [a, b] =>
      String.mk [b64Char (a / 4), b64Char (a % 4 * 16 + b / 16),
        b64Char (b % 16 * 4), '=']
  | a :: b :: c :: rest =>
      String.mk [b64Char (a / 4), b64Char (a % 4 * 16 + b / 16),
        b64Char (b % 16 * 4 + c / 64), b64Char (c % 64)] ++ btoaBytes rest

/-- JS btoa: encodes the code units of a binary string; any character
    above U+00FF makes it throw (modelled as none). -/
def btoa (s : String) : Option String :=
  if s.data.all (fun c => c.toNat < 256) then
    some (btoaBytes (s.data.map Char.toNat))
  else none

/-- ASCII whitespace removed by forgiving-base64 decoding. -/
def isB64Ws (c : Char) : Bool :=
  c.toNat == 9 || c.toNat == 10 || c.toNat == 12 || c.toNat == 13 ||
    c.toNat == 32

/-- Effectful map over Option (the traversal atob performs when mapping
    characters to alphabet values). -/
def mapOption (f : Char → Option Nat) : List Char → Option (List Nat)
  | [] => some []
  | a :: l =>
    match f a with
    | none => none
    | some b => (mapOption f l).map (fun bs => b :: bs)

def dropEq2 : List Char → List Char
  | '=' :: '=' :: rest => rest
  | '=' :: rest => rest
  | l => l

def atobTrimEq (l : List Char) : List Char :=
  if l.length % 4 = 0 then (dropEq2 l.reverse).reverse else l

def atobDecodeVals : List Nat → Option (List Nat)
  | [] => some []
  | [_] => none
  | [a, b] => some [a * 4 + b / 16]
  | [a, b, c] => some [a * 4 + b / 16, b % 16 * 16 + c / 4]
  | a :: b :: c :: d :: rest =>
      (atobDecodeVals rest).map
        (fun tail =>
          (a * 4 + b / 16) :: (b % 16 * 16 + c / 4) :: (c % 4 * 64 + d) :: tail)

/-- JS atob (forgiving-base64): strip ASCII whitespace, strip at most two
    trailing '=' when the length is a multiple of 4, reject a remaining
    length of 1 mod 4 or any character outside the alphabet, then decode.
    none models the InvalidCharacterError, which the worker code does not
    catch. -/
def atob (s : String) : Option String := do
  let l := atobTrimEq (s.data.filter (fun c => !isB64Ws c))
  if l.length % 4 == 1 then none
  else do
    let vals ← mapOption b64Value l
    let bytes ← atobDecodeVals vals
    some (String.mk (bytes.map Char.ofNat))

/-- Lowercase hex digit, as produced by Number.prototype.toString(16). -/
def hexDigitChar (n : Nat) : Char :=
  if n < 10 then Char.ofNat (48 + n) else Char.ofNat (87 + n)

/-- b.toString(16).padStart(2, "0") for a byte value. -/
def toHex2 (b : Nat) : String :=
  String.mk [hexDigitChar (b / 16 % 16), hexDigitChar (b % 16)]

/-- The hex encoding in signData: each signature byte printed as two
    lowercase hex digits and joined. -/
def hexEncodeBytes (l : List Nat) : String := String.join (l.map toHex2)

/-- Line terminators, which the regex metacharacter . does not match. -/
def isLineTerm (c : Char) : Bool :=
  c.toNat == 10 || c.toNat == 13 || c.toNat == 8232 || c.toNat == 8233

/-- s.match(/.{1,2}/g): chunk the string into 1- or 2-character matches,
    skipping line terminators between matches. -/
def jsChunk12 : List Char → List String
  | [] => []
  | a :: rest =>
    if isLineTerm a then jsChunk12 rest
    else
      match rest with
      | [] => [String.mk [a]]
      | b :: rest2 =>
        if isLineTerm b then String.mk [a] :: jsChunk12 (b :: rest2)
        else String.mk [a, b] :: jsChunk12 rest2

/-- Whitespace skipped by Number.parseInt. -/
def isJsWs (c : Char) : Bool :=
  c.toNat == 9 || c.toNat == 10 || c.toNat == 11 || c.toNat == 12 ||
    c.toNat == 13 || c.toNat == 32 || c.toNat == 160 || c.toNat == 65279 ||
    c.toNat == 8232 || c.toNat == 8233

def hexVal (c : Char) : Option Nat :=
  let n := c.toNat
  if 48 ≤ n ∧ n ≤ 57 then some (n - 48)
  else if 97 ≤ n ∧ n ≤ 102 then some (n - 87)
  else if 65 ≤ n ∧ n ≤ 70 then some (n - 55)
  else none

def parseHexDigits : List Char → Option Nat → Option Nat
  | [], acc => acc
  | c :: rest, acc =>
    match hexVal c with
    | some v => parseHexDigits rest (some (acc.getD 0 * 16 + v))
    | none => acc

/-- JS Number.parseInt(s, 16): skip leading whitespace, read an optional
    sign and optional 0x prefix, then the longest hex-digit prefix; no
    digits yields NaN (modelled as none). -/
def jsParseInt16 (s : String) : Option Int :=
  let l := s.data.dropWhile isJsWs
  let signed : Bool × List Char :=
    match l with
    | '-' :: r => (true, r)
    | '+' :: r => (false, r)
    | r => (false, r)
  let l3 : List Char :=
    match signed.2 with
    | '0' :: 'x' :: r => r
    | '0' :: 'X' :: r => r
    | r => r
  match parseHexDigits l3 none with
  | none => none
  | some v => some (if signed.1 then -(v : Int) else (v : Int))

/-- Element coercion of the Uint8Array constructor: NaN becomes 0 and
    integers are taken modulo 2^8. -/
def toUint8 : Option Int → Nat
  | none => 0
  | some i => (i % 256).toNat

/-- The signature-hex decoding in verifySignature:
    signatureHex.match(/.{1,2}/g)!.map(b => Number.parseInt(b, 16))
    wrapped in a Uint8Array.  none models the thrown TypeError when the
    match is null (caught there, yielding false). -/
def jsHexDecodeBytes (s : String) : Option (List Nat) :=
  match jsChunk12 s.data with
  | [] => none
  | chunks => some (chunks.map (fun ch => toUint8 (jsParseInt16 ch)))

end JsPrim

namespace Sha256

/-- Truncation to a 32-bit word. -/
def w32 (n : Nat) : Nat := n % 4294967296

def rotr (x n : Nat) : Nat := w32 ((x >>> n) ||| (x <<< (32 - n)))

def bigSigma0 (x : Nat) : Nat := rotr x 2 ^^^ rotr x 13 ^^^ rotr x 22
def bigSigma1 (x : Nat) : Nat := rotr x 6 ^^^ rotr x 11 ^^^ rotr x 25
def smallSigma0 (x : Nat) : Nat := rotr x 7 ^^^ rotr x 18 ^^^ (x >>> 3)
def smallSigma1 (x : Nat) : Nat := rotr x 17 ^^^ rotr x 19 ^^^ (x >>> 10)

def chf (x y z : Nat) : Nat := (x &&& y) ^^^ ((x ^^^ 4294967295) &&& z)
def majf (x y z : Nat) : Nat := (x &&& y) ^^^ (x &&& z) ^^^ (y &&& z)

def kConsts : List Nat :=
  [1116352408, 1899447441, 3049323471, 3921009573, 961987163, 1508970993,
   2453635748, 2870763221, 3624381080, 310598401, 607225278, 1426881987,
   1925078388, 2162078206, 2614888103, 3248222580, 3835390401, 4022224774,
   264347078, 604807628, 770255983, 1249150122, 1555081692, 1996064986,
   2554220882, 2821834349, 2952996808, 3210313671, 3336571891, 3584528711,
   113926993, 338241895, 666307205, 773529912, 1294757372, 1396182291,
   1695183700, 1986661051, 2177026350, 2456956037, 2730485921, 2820302411,
   3259730800, 3345764771, 3516065817, 3600352804, 4094571909, 275423344,
   430227734, 506948616, 659060556, 883997877, 958139571, 1322822218,
   1537002063, 1747873779, 1955562222, 2024104815, 2227730452, 2361852424,
   2428436474, 2756734187, 3204031479, 3329325298]

structure Hash8 where
  a : Nat
  b : Nat
  c : Nat
  d : Nat
  e : Nat
  f : Nat
  g : Nat
  h : Nat

def initH : Hash8 :=
  ⟨1779033703, 3144134277, 1013904242, 2773480762, 1359893119, 2600822924,
   528734635, 1541459225⟩

def buildSchedule (block : List Nat) : Array Nat :=
  (List.range 48).foldl
    (fun arr j =>
      let t := j + 16
      arr.push
        (w32 (smallSigma1 (arr.getD (t - 2) 0) + arr.getD (t - 7) 0 +
          smallSigma0 (arr.getD (t - 15) 0) + arr.getD (t - 16) 0)))
    block.toArray

def round (k w : Nat) (s : Hash8) : Hash8 :=
  let t1 := w32 (s.h + bigSigma1 s.e + chf s.e s.f s.g + k + w)
  let t2 := w32 (bigSigma0 s.a + majf s.a s.b s.c)
  ⟨w32 (t1 + t2), s.a, s.b, s.c, w32 (s.d + t1), s.e, s.f, s.g⟩

def compress (hs : Hash8) (block : List Nat) : Hash8 :=
  let ws := buildSchedule block
  let s :=
    (List.range 64).foldl
      (fun s t => round (kConsts.getD t 0) (ws.getD t 0) s) hs
  ⟨w32 (hs.a + s.a), w32 (hs.b + s.b), w32 (hs.c + s.c), w32 (hs.d + s.d),
   w32 (hs.e + s.e), w32 (hs.f + s.f), w32 (hs.g + s.g), w32 (hs.h + s.h)⟩

def be8 (n : Nat) : List Nat :=
  [n / 2 ^ 56 % 256, n / 2 ^ 48 % 256, n / 2 ^ 40 % 256, n / 2 ^ 32 % 256,
   n / 2 ^ 24 % 256, n / 2 ^ 16 % 256, n / 2 ^ 8 % 256, n % 256]

def padMsg (msg : List Nat) : List Nat :=
  let len := msg.length
  let z := (120 - (len + 1) % 64) % 64
  msg ++ [0x80] ++ List.replicate z 0 ++ be8 (8 * len)

def toWords : List Nat → List Nat
  | a :: b :: c :: d :: rest =>
      (a * 16777216 + b * 65536 + c * 256 + d) :: toWords rest
  | _ => []

def toBlocksFuel : Nat → List Nat → List (List Nat)
  | 0, _ => []
  | _, [] => []
  | n + 1, w :: ws => (w :: ws).take 16 :: toBlocksFuel n ((w :: ws).drop 16)

/-- Split a word list into 512-bit blocks of 16 words (fuelled by the
    length so the definition reduces by computation). -/
def toBlocks (l : List Nat) : List (List Nat) := toBlocksFuel l.length l

def wordBytes (w : Nat) : List Nat :=
  [w / 16777216 % 256, w / 65536 % 256, w / 256 % 256, w % 256]

/-- SHA-256 of a byte list, as a 32-byte list. -/
def sha256 (msg : List Nat) : List Nat :=
  let hs := (toBlocks (toWords (padMsg msg))).foldl compress initH
  (([hs.a, hs.b, hs.c, hs.d, hs.e, hs.f, hs.g, hs.h]).map wordBytes).flatten

/-- HMAC-SHA-256 over byte lists (WebCrypto sign with an HMAC SHA-256
    key, as imported by importKey from the raw secret bytes). -/
def hmacSha256 (key msg : List Nat) : List Nat :=
  let k0 := if 64 < key.length then sha256 key else key
  let k := k0 ++ List.replicate (64 - k0.length) 0
  sha256 ((k.map (fun b => b ^^^ 0x5c)) ++
    sha256 ((k.map (fun b => b ^^^ 0x36)) ++ msg))

end Sha256

/- A JSON value model for the platform JSON.parse / JSON.stringify used
   by the worker.  Numbers are kept as a normalized decimal mantissa and
   exponent so that value equality matches JS number equality on the
   inputs that occur here. -/

inductive Json where
  | null
  | bool (b : Bool)
  | num (m : Int) (e : Int)
  | str (s : String)
  | arr (elems : List Json)
  | obj (fields : List (String × Json))
  deriving Repr, BEq

namespace Js

def isJsonWs (c : Char) : Bool :=
  c == ' ' || c == '\t' || c == '\n' || c == '\r'

def skipWs (l : List Char) : List Char := l.dropWhile isJsonWs

def digitsToNat (l : List Char) : Nat :=
  l.foldl (fun acc c => acc * 10 + (c.toNat - 48)) 0

def stripZerosFuel : Nat → Nat → Int → Nat × Int
  | 0, n, e => (n, e)
  | f + 1, n, e =>
    if n ≠ 0 ∧ n % 10 = 0 then stripZerosFuel f (n / 10) (e + 1) else (n, e)

/-- Normalize a decimal mantissa/exponent pair so that equal JS number
    values get equal representations. -/
def mkNum (neg : Bool) (m : Nat) (e : Int) : Json :=
  let p := stripZerosFuel m m e
  if p.1 = 0 then Json.num 0 0
  else Json.num (if neg then -(p.1 : Int) else (p.1 : Int)) p.2

def hex4Val (a b c d : Char) : Option Nat := do
  let va ← JsPrim.hexVal a
  let vb ← JsPrim.hexVal b
  let vc ← JsPrim.hexVal c
  let vd ← JsPrim.hexVal d
  some (va * 4096 + vb * 256 + vc * 16 + vd)

/-- Body of a JSON string literal after the opening quote.  Surrogate
    pairs in \uXXXX escapes are combined; a lone surrogate becomes
    U+FFFD (JS would keep the lone code unit; such strings do not occur
    in this development). -/
def parseStrBody : Nat → List Char → List Char → Option (String × List Char)
  | 0, _, _ => none
  | _, _, [] => none
  | _ + 1, acc, '"' :: rest => some (String.mk acc.reverse, rest)
  | fuel + 1, acc, '\\' :: esc =>
    match esc with
    | '"' :: r => parseStrBody fuel ('"' :: acc) r
    | '\\' :: r => parseStrBody fuel ('\\' :: acc) r
    | '/' :: r => parseStrBody fuel ('/' :: acc) r
    | 'b' :: r => parseStrBody fuel (Char.ofNat 8 :: acc) r
    | 'f' :: r => parseStrBody fuel (Char.ofNat 12 :: acc) r
    | 'n' :: r => parseStrBody fuel ('\n' :: acc) r
    | 'r' :: r => parseStrBody fuel (Char.ofNat 13 :: acc) r
    | 't' :: r => parseStrBody fuel ('\t' :: acc) r
    | 'u' :: h1 :: h2 :: h3 :: h4 :: r =>
      match hex4Val h1 h2 h3 h4 with
      | none => none
      | some n =>
        if 0xD800 ≤ n ∧ n ≤ 0xDBFF then
          match r with
          | '\\' :: 'u' :: g1 :: g2 :: g3 :: g4 :: r2 =>
            match hex4Val g1 g2 g3 g4 with
            | some n2 =>
              if 0xDC00 ≤ n2 ∧ n2 ≤ 0xDFFF then
                parseStrBody fuel
                  (Char.ofNat (0x10000 + (n - 0xD800) * 0x400 + (n2 - 0xDC00))
                    :: acc) r2
              else parseStrBody fuel (Char.ofNat 0xFFFD :: acc) r
            | none => parseStrBody fuel (Char.ofNat 0xFFFD :: acc) r
          | _ => parseStrBody fuel (Char.ofNat 0xFFFD :: acc) r
        else if 0xDC00 ≤ n ∧ n ≤ 0xDFFF then
          parseStrBody fuel (Char.ofNat 0xFFFD :: acc) r
        else parseStrBody fuel (Char.ofNat n :: acc) r
    | _ => none
  | fuel + 1, acc, c :: rest =>
    if c.toNat < 0x20 then none else parseStrBody fuel (c :: acc) rest

def parseDigits (l : List Char) : List Char × List Char :=
  (l.takeWhile Char.isDigit, l.dropWhile Char.isDigit)

/-- JSON number grammar: -? int frac? exp?. -/
def parseNumber (l : List Char) : Option (Json × List Char) := do
  let (neg, l1) :=
    match l with
    | '-' :: r => (true, r)
    | r => (false, r)
  let (intDigits, l2) ←
    match l1 with
    | '0' :: r => some (['0'], r)
    | c :: r =>
      if c.isDigit then
        let p := parseDigits (c :: r)
        some (p.1, p.2)
      else none
    | [] => none
  let (fracDigits, l3) ←
    match l2 with
    | '.' :: r =>
      let p := parseDigits r
      if p.1.isEmpty then none else some (p.1, p.2)
    | r => some (([] : List Char), r)
  let (expVal, l4) ←
    match l3 with
    | 'e' :: r | 'E' :: r =>
      let (esign, r1) :=
        match r with
        | '-' :: r2 => (true, r2)
        | '+' :: r2 => (false, r2)
        | r2 => (false, r2)
      let p := parseDigits r1
      if p.1.isEmpty then none
      else
        some ((if esign then -(digitsToNat p.1 : Int) else (digitsToNat p.1 : Int)), p.2)
    | r => some ((0 : Int), r)
  some (mkNum neg (digitsToNat (intDigits ++ fracDigits))
    (expVal - fracDigits.length), l4)

def objSetField (fields : List (String × Json)) (k : String) (v : Json) :
    List (String × Json) :=
  match fields with
  | [] => [(k, v)]
  | (k0, v0) :: rest =>
    if k0 = k then (k0, v) :: rest else (k0, v0) :: objSetField rest k v

mutual

/-- One fuel unit is spent per recursive descent; callers pass
    2 * length + 4, enough for any input since at most two descents
    happen per consumed character. -/
def parseVal : Nat → List Char → Option (Json × List Char)
  | 0, _ => none
  | fuel + 1, l =>
    match skipWs l with
    | 'n' :: 'u' :: 'l' :: 'l' :: r => some (Json.null, r)
    | 't' :: 'r' :: 'u' :: 'e' :: r => some (Json.bool true, r)
    | 'f' :: 'a' :: 'l' :: 's' :: 'e' :: r => some (Json.bool false, r)
    | '"' :: r =>
      match parseStrBody (r.length + 1) [] r with
      | some (s, r2) => some (Json.str s, r2)
      | none => none
    | '[' :: r =>
      match skipWs r with
      | ']' :: r2 => some (Json.arr [], r2)
      | _ =>
        match parseArrItems fuel r with
        | some (items, r2) => some (Json.arr items, r2)
        | none => none
    | '{' :: r =>
      match skipWs r with
      | '}' :: r2 => some (Json.obj [], r2)
      | _ =>
        match parseObjItems fuel [] r with
        | some (fields, r2) => some (Json.obj fields, r2)
        | none => none
    | l1 => parseNumber l1

def parseArrItems : Nat → List Char → Option (List Json × List Char)
  | 0, _ => none
  | fuel + 1, l =>
    match parseVal fuel l with
    | none => none
    | some (v, r) =>
      match skipWs r with
      | ',' :: r2 =>
        match parseArrItems fuel r2 with
        | some (items, r3) => some (v :: items, r3)
        | none => none
      | ']' :: r2 => some ([v], r2)
      | _ => none

def parseObjItems : Nat → List (String × Json) → List Char →
    Option (List (String × Json) × List Char)
  | 0, _, _ => none
  | fuel + 1, acc, l =>
    match skipWs l with
    | '"' :: r =>
      match parseStrBody (r.length + 1) [] r with
      | none => none
      | some (key, r1) =>
        match skipWs r1 with
        | ':' :: r2 =>
          match parseVal fuel r2 with
          | none => none
          | some (v, r3) =>
            let acc2 := objSetField acc key v
            match skipWs r3 with
            | ',' :: r4 => parseObjItems fuel acc2 r4
            | '}' :: r4 => some (acc2, r4)
            | _ => none
        | _ => none
    | _ => none

end

/-- Platform JSON.parse: parse one value and require only whitespace
    after it; none models the thrown SyntaxError. -/
def jsonParse (s : String) : Option Json :=
  match parseVal (2 * s.length + 4) s.data with
  | some (v, rest) => if (skipWs rest).isEmpty then some v else none
  | none => none

/-- JSON.stringify escaping for one character of a string value. -/
def escChar (c : Char) : String :=
  if c = '"' then "\\\""
  else if c = '\\' then "\\\\"
  else if c.toNat = 8 then "\\b"
  else if c.toNat = 9 then "\\t"
  else if c.toNat = 10 then "\\n"
  else if c.toNat = 12 then "\\f"
  else if c.toNat = 13 then "\\r"
  else if c.toNat < 32 then "\\u00" ++ JsPrim.toHex2 c.toNat
  else String.mk [c]

def quoteStr (s : String) : String :=
  "\"" ++ String.join (s.data.map escChar) ++ "\""

/-- Decimal rendering of a normalized mantissa/exponent number; the
    worker only ever stringifies strings, so this is exercised only on
    hand-written values (JS exponent notation for extreme magnitudes is
    not reproduced). -/
def numToString (m e : Int) : String :=
  if 0 ≤ e then toString (m * 10 ^ e.toNat)
  else
    let digits := toString m.natAbs
    let k := e.natAbs
    let padded :=
      if digits.length ≤ k then
        String.mk (List.replicate (k + 1 - digits.length) '0') ++ digits
      else digits
    let point := padded.length - k
    (if m < 0 then "-" else "") ++
      (String.mk (padded.data.take point) ++ "." ++
        String.mk (padded.data.drop point))

mutual

def jsonStringify : Json → String
  | Json.null => "null"
  | Json.bool true => "true"
  | Json.bool false => "false"
  | Json.num m e => numToString m e
  | Json.str s => quoteStr s
  | Json.arr l => "[" ++ stringifyItems l ++ "]"
  | Json.obj l => "\x7b" ++ stringifyFields l ++ "\x7d"

def stringifyItems : List Json → String
  | [] => ""
  | [v] => jsonStringify v
  | v :: rest => jsonStringify v ++ "," ++ stringifyItems rest

def stringifyFields : List (String × Json) → String
  | [] => ""
  | [(k, v)] => quoteStr k ++ ":" ++ jsonStringify v
  | (k, v) :: rest =>
    quoteStr k ++ ":" ++ jsonStringify v ++ "," ++ stringifyFields rest

end

/-- JS truthiness of a JSON value (NaN cannot occur here). -/
def jsTruthy : Json → Bool
  | Json.null => false
  | Json.bool b => b
  | Json.num m _ => m ≠ 0
  | Json.str s => s ≠ ""
  | Json.arr _ => true
  | Json.obj _ => true

/-- Truthiness of a possibly-undefined value. -/
def jsTruthyOpt : Option Json → Bool
  | none => false
  | some v => jsTruthy v

/-- Property access o.k (or optional chaining from a defined value):
    undefined for any non-object base. -/
def objGet : Json → String → Option Json
  | Json.obj fields, k => fields.lookup k
  | _, _ => none

/-- o?.k on a possibly-undefined base. -/
def optGet (o : Option Json) (k : String) : Option Json :=
  o.bind (fun j => objGet j k)

/-- Object spread with one property overwritten or appended,
    as in a spread-plus-property literal. -/
def objSet (j : Json) (k : String) (v : Json) : Json :=
  match j with
  | Json.obj fields => Json.obj (objSetField fields k v)
  | other => other

/-- Rest destructuring: remove one property, keeping field order. -/
def objRemove (j : Json) (k : String) : Json :=
  match j with
  | Json.obj fields => Json.obj (fields.filter (fun p => p.1 ≠ k))
  | other => other

/-- SameValueZero on JSON values as used by a JS Set: structural value
    equality on primitives, reference identity (hence never equal for
    the distinct literals that occur here) on arrays and objects. -/
def jsonSameValueZero : Json → Json → Bool
  | Json.null, Json.null => true
  | Json.bool a, Json.bool b => a == b
  | Json.num m e, Json.num m2 e2 => m == m2 && e == e2
  | Json.str a, Json.str b => a == b
  | _, _ => false

/-- Array.from(new Set(l)): first-occurrence-order deduplication. -/
def dedupSVZAux : List Json → List Json → List Json
  | _, [] => []
  | seen, x :: xs =>
    if seen.any (fun y => jsonSameValueZero y x) then dedupSVZAux seen xs
    else x :: dedupSVZAux (x :: seen) xs

def dedupSVZ (l : List Json) : List Json := dedupSVZAux [] l

end Js

/- ==================================================================
   src/workers-oauth-utils.ts
   ================================================================== -/

namespace OauthUtils

def COOKIE_NAME : String := "mcp-approved-clients"

def ONE_YEAR_IN_SECONDS : Nat := 31536000

/-- JS String.prototype.trim. -/
def jsTrim (s : String) : String :=
  String.mk
    (((s.data.dropWhile JsPrim.isJsWs).reverse.dropWhile JsPrim.isJsWs).reverse)

/-- signData: HMAC-SHA-256 under the key imported from the raw secret
    bytes, rendered as a lowercase hex string. -/
def signData (secret data : String) : String :=
  JsPrim.hexEncodeBytes
    (Sha256.hmacSha256 (JsPrim.utf8Encode secret) (JsPrim.utf8Encode data))

/-- verifySignature: decode the hex signature (a null regex match makes
    the map throw, caught to false) and let WebCrypto compare the
    decoded bytes against the HMAC of the data. -/
def verifySignature (secret signatureHex data : String) : Bool :=
  match JsPrim.jsHexDecodeBytes signatureHex with
  | none => false
  | some sigBytes =>
    sigBytes ==
      Sha256.hmacSha256 (JsPrim.utf8Encode secret) (JsPrim.utf8Encode data)

/-- getApprovedClientsFromCookie.  The Except error is an uncaught
    exception: atob on an undecodable base64 payload, or importKey on an
    empty secret.  ok none is every handled invalid-cookie case. -/
def getApprovedClientsFromCookie (cookieHeader : Option String)
    (secret : String) : Except Unit (Option (List String)) :=
  match cookieHeader with
  | none => .ok none
  | some ch =>
    if ch = "" then .ok none
    else
      let cookies := (JsPrim.jsSplit ch ";").map jsTrim
      match cookies.find? (fun c => JsPrim.jsStartsWith c (COOKIE_NAME ++ "=")) with
      | none => .ok none
      | some targetCookie =>
        let cookieValue := JsPrim.jsSubstringFrom targetCookie (COOKIE_NAME.length + 1)
        let parts := JsPrim.jsSplit cookieValue "."
        if parts.length ≠ 2 then .ok none
        else
          let signatureHex := parts.getD 0 ""
          let base64Payload := parts.getD 1 ""
          match JsPrim.atob base64Payload with
          | none => .error ()
          | some payload =>
            if secret = "" then .error ()
            else if !verifySignature secret signatureHex payload then .ok none
            else
              match Js.jsonParse payload with
              | none => .ok none
              | some j =>
                match j with
                | Json.arr elems =>
                  if elems.all
                      (fun e => match e with | Json.str _ => true | _ => false)
                  then .ok (some (elems.map
                    (fun e => match e with | Json.str s => s | _ => "")))
                  else .ok none
                | _ => .ok none

/-- clientIdAlreadyApproved. -/
def clientIdAlreadyApproved (cookieHeader : Option String)
    (clientId secret : String) : Except Unit Bool :=
  if clientId = "" then .ok false
  else
    match getApprovedClientsFromCookie cookieHeader secret with
    | .error e => .error e
    | .ok none => .ok false
    | .ok (some l) => .ok (l.contains clientId)

structure ParsedApprovalResult where
  state : Json
  setCookie : String
  deriving Repr

/-- parseRedirectApproval.  The form state is the "state" field of the
    POSTed form data; all throw sites (wrong method, missing state,
    undecodable state, missing clientId, cookie-read or key-import or
    btoa failures) are the Except error. -/
def parseRedirectApproval (method : String) (formState : Option String)
    (cookieHeader : Option String) (cookieSecret : String) :
    Except Unit ParsedApprovalResult :=
  if method ≠ "POST" then .error ()
  else
    match formState with
    | none => .error ()
    | some encodedState =>
      if encodedState = "" then .error ()
      else
        match JsPrim.atob encodedState with
        | none => .error ()
        | some jsonString =>
          match Js.jsonParse jsonString with
          | none => .error ()
          | some state =>
            match Js.optGet (Js.objGet state "oauthReqInfo") "clientId" with
            | none => .error ()
            | some cid =>
              if !Js.jsTruthy cid then .error ()
              else
                match getApprovedClientsFromCookie cookieHeader cookieSecret with
                | .error e => .error e
                | .ok existing0 =>
                  let existingApprovedClients := existing0.getD []
                  let updatedApprovedClients :=
                    Js.dedupSVZ (existingApprovedClients.map Json.str ++ [cid])
                  let payload :=
                    Js.jsonStringify (Json.arr updatedApprovedClients)
                  if cookieSecret = "" then .error ()
                  else
                    let signature := signData cookieSecret payload
                    match JsPrim.btoa payload with
                    | none => .error ()
                    | some b64 =>
                      .ok { state := state,
                            setCookie := COOKIE_NAME ++ "=" ++ signature ++
                              "." ++ b64 ++
                              "; HttpOnly; Secure; Path=/; SameSite=Lax; Max-Age="
                              ++ toString ONE_YEAR_IN_SECONDS }

/-- sanitizeHtml: the chained global replacements of the five HTML
    special characters (the replacements introduce no further matches,
    so a single character map is equivalent). -/
def sanitizeChar (c : Char) : String :=
  if c = '&' then "&amp;"
  else if c = '<' then "&lt;"
  else if c = '>' then "&gt;"
  else if c = '"' then "&quot;"
  else if c.toNat = 39 then "&#039;"
  else String.mk [c]

def sanitizeHtml (s : String) : String :=
  String.join (s.data.map sanitizeChar)

end OauthUtils

/- ==================================================================
   renderApprovalDialog (src/workers-oauth-utils.ts) and
   src/microsoft-handler.ts
   ================================================================== -/

namespace Handler

/-- JS a || b on strings. -/
def jsOr (a b : String) : String := if a ≠ "" then a else b

/-- Logo img fragment of the dialog template. -/
def imgFrag (logoUrl serverName : String) : String :=
  if logoUrl ≠ "" then
    "<img src=\"" ++ logoUrl ++ "\" alt=\"" ++ serverName ++
      " Logo\" class=\"logo\">"
  else ""

/-- Server-description fragment of the dialog template. -/
def descFrag (serverDescription : String) : String :=
  if serverDescription ≠ "" then
    "<p class=\"description\">" ++ serverDescription ++ "</p>"
  else ""

/-- Conditional client-detail fragment of the dialog template. -/
def clientUriFrag (clientUri : String) : String :=
  if clientUri ≠ "" then
    "
                <div class=\"client-detail\">
                  <div class=\"detail-label\">Website:</div>
                  <div class=\"detail-value small\">
                    <a href=\"" ++
      clientUri ++
      "\" target=\"_blank\" rel=\"noopener noreferrer\">
                      " ++
      clientUri ++
      "
                    </a>
                  </div>
                </div>
              "
  else ""

/-- Conditional client-detail fragment of the dialog template. -/
def policyUriFrag (policyUri : String) : String :=
  if policyUri ≠ "" then
    "
                <div class=\"client-detail\">
                  <div class=\"detail-label\">Privacy Policy:</div>
                  <div class=\"detail-value\">
                    <a href=\"" ++
      policyUri ++
      "\" target=\"_blank\" rel=\"noopener noreferrer\">
                      " ++
      policyUri ++
      "
                    </a>
                  </div>
                </div>
              "
  else ""

/-- Conditional client-detail fragment of the dialog template. -/
def tosUriFrag (tosUri : String) : String :=
  if tosUri ≠ "" then
    "
                <div class=\"client-detail\">
                  <div class=\"detail-label\">Terms of Service:</div>
                  <div class=\"detail-value\">
                    <a href=\"" ++
      tosUri ++
      "\" target=\"_blank\" rel=\"noopener noreferrer\">
                      " ++
      tosUri ++
      "
                    </a>
                  </div>
                </div>
              "
  else ""

/-- Redirect-URI list fragment of the dialog template. -/
def redirectUrisFrag (redirectUris : List String) : String :=
  if 0 < redirectUris.length then
    "
                <div class=\"client-detail\">
                  <div class=\"detail-label\">Redirect URIs:</div>
                  <div class=\"detail-value small\">
                    " ++
      String.join (redirectUris.map (fun uri => "<div>" ++ uri ++ "</div>")) ++
      "
                  </div>
                </div>
              "
  else ""

/-- Contacts fragment of the dialog template. -/
def contactsFrag (contacts : String) : String :=
  if contacts ≠ "" then
    "
                <div class=\"client-detail\">
                  <div class=\"detail-label\">Contact:</div>
                  <div class=\"detail-value\">" ++
      contacts ++
      "</div>
                </div>
              "
  else ""

/-- The htmlContent template literal of renderApprovalDialog, with
    the already-sanitized dynamic values spliced in. -/
def approvalDialogHtml (clientName serverName serverDescription logoUrl
    clientUri policyUri tosUri contacts : String)
    (redirectUris : List String) (encodedState actionPath : String) :
    String :=
  "
    <!DOCTYPE html>
    <html lang=\"en\">
      <head>
        <meta charset=\"UTF-8\">
        <meta name=\"viewport\" content=\"width=device-width, initial-scale=1.0\">
        <title>" ++
  clientName ++
  " | Authorization Request</title>
        <style>
          /* Modern, responsive styling with system fonts */
          :root \x7b
            --primary-color: #0070f3;
            --error-color: #f44336;
            --border-color: #e5e7eb;
            --text-color: #333;
            --background-color: #fff;
            --card-shadow: 0 8px 36px 8px rgba(0, 0, 0, 0.1);
          \x7d
          
          body \x7b
            font-family: -apple-system, BlinkMacSystemFont, \"Segoe UI\", Roboto, 
                         Helvetica, Arial, sans-serif, \"Apple Color Emoji\", 
                         \"Segoe UI Emoji\", \"Segoe UI Symbol\";
            line-height: 1.6;
            color: var(--text-color);
            background-color: #f9fafb;
            margin: 0;
            padding: 0;
          \x7d
          
          .container \x7b
            max-width: 600px;
            margin: 2rem auto;
            padding: 1rem;
          \x7d
          
          .precard \x7b
            padding: 2rem;
            text-align: center;
          \x7d
          
          .card \x7b
            background-color: var(--background-color);
            border-radius: 8px;
            box-shadow: var(--card-shadow);
            padding: 2rem;
          \x7d
          
          .header \x7b
            display: flex;
            align-items: center;
            justify-content: center;
            margin-bottom: 1.5rem;
          \x7d
          
          .logo \x7b
            width: 48px;
            height: 48px;
            margin-right: 1rem;
            border-radius: 8px;
            object-fit: contain;
          \x7d
          
          .title \x7b
            margin: 0;
            font-size: 1.3rem;
            font-weight: 400;
          \x7d
          
          .alert \x7b
            margin: 0;
            font-size: 1.5rem;
            font-weight: 400;
            margin: 1rem 0;
            text-align: center;
          \x7d
          
          .description \x7b
            color: #555;
          \x7d
          
          .client-info \x7b
            border: 1px solid var(--border-color);
            border-radius: 6px;
            padding: 1rem 1rem 0.5rem;
            margin-bottom: 1.5rem;
          \x7d
          
          .client-name \x7b
            font-weight: 600;
            font-size: 1.2rem;
            margin: 0 0 0.5rem 0;
          \x7d
          
          .client-detail \x7b
            display: flex;
            margin-bottom: 0.5rem;
            align-items: baseline;
          \x7d
          
          .detail-label \x7b
            font-weight: 500;
            min-width: 120px;
          \x7d
          
          .detail-value \x7b
            font-family: SFMono-Regular, Menlo, Monaco, Consolas, \"Liberation Mono\", \"Courier New\", monospace;
            word-break: break-all;
          \x7d
          
          .detail-value a \x7b
            color: inherit;
            text-decoration: underline;
          \x7d
          
          .detail-value.small \x7b
            font-size: 0.8em;
          \x7d
          
          .external-link-icon \x7b
            font-size: 0.75em;
            margin-left: 0.25rem;
            vertical-align: super;
          \x7d
          
          .actions \x7b
            display: flex;
            justify-content: flex-end;
            gap: 1rem;
            margin-top: 2rem;
          \x7d
          
          .button \x7b
            padding: 0.75rem 1.5rem;
            border-radius: 6px;
            font-weight: 500;
            cursor: pointer;
            border: none;
            font-size: 1rem;
          \x7d
          
          .button-primary \x7b
            background-color: var(--primary-color);
            color: white;
          \x7d
          
          .button-secondary \x7b
            background-color: transparent;
            border: 1px solid var(--border-color);
            color: var(--text-color);
          \x7d
          
          /* Responsive adjustments */
          @media (max-width: 640px) \x7b
            .container \x7b
              margin: 1rem auto;
              padding: 0.5rem;
            \x7d
            
            .card \x7b
              padding: 1.5rem;
            \x7d
            
            .client-detail \x7b
              flex-direction: column;
            \x7d
            
            .detail-label \x7b
              min-width: unset;
              margin-bottom: 0.25rem;
            \x7d
            
            .actions \x7b
              flex-direction: column;
            \x7d
            
            .button \x7b
              width: 100%;
            \x7d
          \x7d
        </style>
      </head>
      <body>
        <div class=\"container\">
          <div class=\"precard\">
            <div class=\"header\">
              " ++
  (imgFrag logoUrl serverName) ++
  "
            <h1 class=\"title\"><strong>" ++
  serverName ++
  "</strong></h1>
            </div>
            
            " ++
  (descFrag serverDescription) ++
  "
          </div>
            
          <div class=\"card\">
            
            <h2 class=\"alert\"><strong>" ++
  (jsOr clientName "A new MCP Client") ++
  "</strong> is requesting access</h1>
            
            <div class=\"client-info\">
              <div class=\"client-detail\">
                <div class=\"detail-label\">Name:</div>
                <div class=\"detail-value\">
                  " ++
  clientName ++
  "
                </div>
              </div>
              
              " ++
  (clientUriFrag clientUri) ++
  "
              
              " ++
  (policyUriFrag policyUri) ++
  "
              
              " ++
  (tosUriFrag tosUri) ++
  "
              
              " ++
  (redirectUrisFrag redirectUris) ++
  "
              
              " ++
  (contactsFrag contacts) ++
  "
            </div>
            
            <p>This MCP Client is requesting to be authorized on " ++
  serverName ++
  ". If you approve, you will be redirected to complete authentication.</p>
            
            <form method=\"post\" action=\"" ++
  actionPath ++
  "\">
              <input type=\"hidden\" name=\"state\" value=\"" ++
  encodedState ++
  "\">
              
              <div class=\"actions\">
                <button type=\"button\" class=\"button button-secondary\" onclick=\"window.history.back()\">Cancel</button>
                <button type=\"submit\" class=\"button button-primary\">Approve</button>
              </div>
            </form>
          </div>
        </div>
      </body>
    </html>
  "

end Handler
namespace Handler

/-- s.includes(sub) for a non-empty search string. -/
def strIncludes (s sub : String) : Bool := (JsPrim.jsSplit s sub).length ≠ 1

structure ClientInfo where
  clientName : Option String
  clientUri : Option String
  policyUri : Option String
  tosUri : Option String
  contacts : Option (List String)
  redirectUris : Option (List String)

/-- The server block passed to renderApprovalDialog by the /authorize
    route. -/
def serverName0 : String := "Microsoft 365 MCP Server"

def serverDescription0 : String :=
  "Microsoft 365 MCP Server - Access your Office 365 data through AI tools."

def serverLogo0 : String :=
  "https://upload.wikimedia.org/wikipedia/commons/thumb/4/44/Microsoft_logo.svg/240px-Microsoft_logo.svg.png"

/-- The display name the dialog shows: the sanitized registered client
    name when present and non-empty, the fallback label otherwise. -/
def clientNameOf (client : Option ClientInfo) : String :=
  match client.bind (fun c => c.clientName) with
  | some n =>
    if n ≠ "" then OauthUtils.sanitizeHtml n else "Unknown MCP Client"
  | none => "Unknown MCP Client"

/-- renderApprovalDialog: sanitize the client/server fields, encode the
    state, and fill the dialog template.  none is the btoa throw on a
    state outside Latin-1. -/
def renderApprovalDialog (actionPath : String) (client : Option ClientInfo)
    (sname sdesc slogo : String) (state : Json) : Option String :=
  match JsPrim.btoa (Js.jsonStringify state) with
  | none => none
  | some encodedState =>
    let serverName := OauthUtils.sanitizeHtml sname
    let clientName := clientNameOf client
    let serverDescription :=
      if sdesc ≠ "" then OauthUtils.sanitizeHtml sdesc else ""
    let logoUrl := if slogo ≠ "" then OauthUtils.sanitizeHtml slogo else ""
    let clientUri :=
      match client.bind (fun c => c.clientUri) with
      | some u => if u ≠ "" then OauthUtils.sanitizeHtml u else ""
      | none => ""
    let policyUri :=
      match client.bind (fun c => c.policyUri) with
      | some u => if u ≠ "" then OauthUtils.sanitizeHtml u else ""
      | none => ""
    let tosUri :=
      match client.bind (fun c => c.tosUri) with
      | some u => if u ≠ "" then OauthUtils.sanitizeHtml u else ""
      | none => ""
    let contacts :=
      match client.bind (fun c => c.contacts) with
      | some l =>
        if 0 < l.length then OauthUtils.sanitizeHtml (String.intercalate ", " l)
        else ""
      | none => ""
    let redirectUris :=
      match client.bind (fun c => c.redirectUris) with
      | some l => if 0 < l.length then l.map OauthUtils.sanitizeHtml else []
      | none => []
    some (approvalDialogHtml clientName serverName serverDescription logoUrl
      clientUri policyUri tosUri contacts redirectUris encodedState actionPath)

/-- Characters serialized verbatim by URLSearchParams
    (application/x-www-form-urlencoded). -/
def isFormSafe (c : Char) : Bool :=
  (48 ≤ c.toNat && c.toNat ≤ 57) || (65 ≤ c.toNat && c.toNat ≤ 90) ||
    (97 ≤ c.toNat && c.toNat ≤ 122) || c == '*' || c == '-' || c == '.' ||
    c == '_'

def hexDigitUpper (n : Nat) : Char :=
  if n < 10 then Char.ofNat (48 + n) else Char.ofNat (55 + n)

def pctByte (b : Nat) : String :=
  String.mk ['%', hexDigitUpper (b / 16 % 16), hexDigitUpper (b % 16)]

def formEncodeChar (c : Char) : String :=
  if c = ' ' then "+"
  else if isFormSafe c then String.mk [c]
  else String.join ((JsPrim.utf8Char c).map pctByte)

/-- application/x-www-form-urlencoded serialization of one value. -/
def formUrlEncode (s : String) : String :=
  String.join (s.data.map formEncodeChar)

/-- getUpstreamAuthorizeUrl (src/utils.ts): the upstream URL with the
    six query parameters appended in the order they are set.  The
    Microsoft authorize URL carries no query of its own, so
    url.toString() is the base followed by the serialized parameters. -/
def getUpstreamAuthorizeUrl (client_id redirect_uri scope state
    upstream_url : String) : String :=
  upstream_url ++ "?client_id=" ++ formUrlEncode client_id ++
    "&response_type=" ++ formUrlEncode "code" ++
    "&redirect_uri=" ++ formUrlEncode redirect_uri ++
    "&scope=" ++ formUrlEncode scope ++
    "&state=" ++ formUrlEncode state ++
    "&response_mode=" ++ formUrlEncode "query"

structure Env where
  MICROSOFT_CLIENT_ID : String
  MICROSOFT_TENANT_ID : String
  MICROSOFT_CLIENT_SECRET : String
  COOKIE_ENCRYPTION_KEY : String

/-- The Microsoft Graph scope string used by the handler and the token
    bridge. -/
def authScope : String :=
  "User.Read Mail.Read Mail.ReadWrite Mail.Send Calendars.Read Calendars.ReadWrite Contacts.Read Contacts.ReadWrite People.Read People.Read.All OnlineMeetings.ReadWrite ChannelMessage.Send Team.ReadBasic.All offline_access"

structure RedirectResponse where
  location : String
  extraHeaders : List (String × String)
  status : Nat
  deriving Repr

mutual

/-- Template-literal stringification of a JS value. -/
def jsTemplateStr : Json → String
  | Json.null => "null"
  | Json.bool true => "true"
  | Json.bool false => "false"
  | Json.num m e => Js.numToString m e
  | Json.str s => s
  | Json.arr l => jsTemplateStrList l
  | Json.obj _ => "[object Object]"

/-- Array.prototype.toString renders null elements as empty. -/
def jsTemplateStrElem : Json → String
  | Json.null => ""
  | v => jsTemplateStr v

def jsTemplateStrList : List Json → String
  | [] => ""
  | [v] => jsTemplateStrElem v
  | v :: rest => jsTemplateStrElem v ++ "," ++ jsTemplateStrList rest

end

/-- String(v) for a possibly-undefined value. -/
def jsStringOfOpt : Option Json → String
  | none => "undefined"
  | some v => jsTemplateStr v

/-- redirectToMicrosoft: client-type detection from the redirect URI,
    then a 302 whose location is the upstream authorize URL and whose
    state is the base64 JSON of the original request plus clientType.
    origin stands for the scheme-plus-host of the incoming request URL,
    so that new URL("/callback", request.url).href is origin/callback.
    none is a thrown error (non-string redirect URI without an includes
    method, or btoa on a state outside Latin-1). -/
def redirectToMicrosoft (origin : String) (oauthReqInfo : Json) (env : Env)
    (headers : List (String × String)) : Option RedirectResponse :=
  let isLocalClient? : Option Bool :=
    match Js.objGet oauthReqInfo "redirectUri" with
    | none => some false
    | some Json.null => some false
    | some (Json.str r) =>
      some (strIncludes r "localhost" || strIncludes r "127.0.0.1")
    | some (Json.arr l) =>
      some (l.contains (Json.str "localhost") ||
        l.contains (Json.str "127.0.0.1"))
    | some _ => none
  match isLocalClient? with
  | none => none
  | some isLocalClient =>
    let clientType := if isLocalClient then "mcp-remote" else "web-connector"
    let stateJson := Js.objSet oauthReqInfo "clientType" (Json.str clientType)
    match JsPrim.btoa (Js.jsonStringify stateJson) with
    | none => none
    | some st =>
      some { location := getUpstreamAuthorizeUrl env.MICROSOFT_CLIENT_ID
               (origin ++ "/callback") authScope st
               ("https://login.microsoftonline.com/" ++ env.MICROSOFT_TENANT_ID
                 ++ "/oauth2/v2.0/authorize"),
             extraHeaders := headers,
             status := 302 }

/-- clientIdAlreadyApproved applied to the parsed clientId value the
    /authorize route passes through (a string for every well-typed
    request; includes uses strict equality against the cookie list). -/
def clientIdAlreadyApprovedJ (cookieHeader : Option String)
    (clientId : Option Json) (secret : String) : Except Unit Bool :=
  if !Js.jsTruthyOpt clientId then .ok false
  else
    match OauthUtils.getApprovedClientsFromCookie cookieHeader secret with
    | .error e => .error e
    | .ok none => .ok false
    | .ok (some l) =>
      .ok (match clientId with
           | some (Json.str s) => l.contains s
           | _ => false)

inductive AuthorizeOutcome where
  | badRequest (body : String)
  | redirect (r : RedirectResponse)
  | consent (html : String)
  | thrown
  deriving Repr

/-- GET /authorize: 400 on a missing clientId, direct redirect to
    Microsoft when the approval cookie already lists the client,
    otherwise the consent dialog.  (The preceding initializeMCPClient
    call only writes an ignored KV record and cannot affect the
    response.) -/
def getAuthorize (origin : String) (oauthReqInfo : Json)
    (client : Option ClientInfo) (cookieHeader : Option String) (env : Env) :
    AuthorizeOutcome :=
  let clientId := Js.objGet oauthReqInfo "clientId"
  if !Js.jsTruthyOpt clientId then .badRequest "Invalid request"
  else
    match clientIdAlreadyApprovedJ cookieHeader clientId
        env.COOKIE_ENCRYPTION_KEY with
    | .error _ => .thrown
    | .ok true =>
      match redirectToMicrosoft origin oauthReqInfo env [] with
      | some r => .redirect r
      | none => .thrown
    | .ok false =>
      match renderApprovalDialog "/authorize" client serverName0
          serverDescription0 serverLogo0
          (Json.obj [("oauthReqInfo", oauthReqInfo)]) with
      | some html => .consent html
      | none => .thrown

inductive PostAuthorizeOutcome where
  | badRequest (body : String)
  | redirect (r : RedirectResponse)
  | thrown
  deriving Repr

/-- POST /authorize: parse the approval form (rethrowing its failures),
    400 when the decoded state has no oauthReqInfo, otherwise redirect
    to Microsoft carrying the fresh approval cookie header. -/
def postAuthorize (origin : String) (method : String)
    (formState : Option String) (cookieHeader : Option String) (env : Env) :
    PostAuthorizeOutcome :=
  match OauthUtils.parseRedirectApproval method formState cookieHeader
      env.COOKIE_ENCRYPTION_KEY with
  | .error _ => .thrown
  | .ok res =>
    match Js.objGet res.state "oauthReqInfo" with
    | none => .badRequest "Invalid request"
    | some ori =>
      if !Js.jsTruthy ori then .badRequest "Invalid request"
      else
        match redirectToMicrosoft origin ori env
            [("Set-Cookie", res.setCookie)] with
        | some r => .redirect r
        | none => .thrown

/-- The arguments the /callback route hands to the platform's
    completeAuthorization (the userId also carries a timestamp, which is
    irrelevant to control flow and omitted). -/
structure CompleteAuthArgs where
  label : String
  microsoftAuthCode : String
  microsoftRedirectUri : String
  clientType : Json
  request : Json
  scope : Option Json
  deriving Repr

inductive CallbackOutcome where
  | badRequest (body : String)
  | completed (args : CompleteAuthArgs)
  | thrown
  deriving Repr

/-- GET /callback: decode the state query parameter (uncaught throws on
    a missing or undecodable state), 400 without a clientId in the
    state, 400 without a non-empty code, otherwise invoke
    completeAuthorization and redirect to the URL it returns. -/
def getCallback (origin : String) (stateQ codeQ : Option String) :
    CallbackOutcome :=
  let stateStr := match stateQ with
    | some s => s
    | none => "undefined"
  match JsPrim.atob stateStr with
  | none => .thrown
  | some decoded =>
    match Js.jsonParse decoded with
    | none => .thrown
    | some stateData =>
      match stateData with
      | Json.null => .thrown
      | _ =>
        let clientType : Json :=
          (Js.objGet stateData "clientType").getD (Json.str "mcp-remote")
        let oauthReqInfo := Js.objRemove stateData "clientType"
        if !Js.jsTruthyOpt (Js.objGet oauthReqInfo "clientId") then
          .badRequest "Invalid state"
        else if !JsPrim.truthyStr codeQ then
          .badRequest "No authorization code received from Microsoft"
        else
          .completed
            { label := "Microsoft 365 User (" ++ jsTemplateStr clientType
                ++ ")",
              microsoftAuthCode := codeQ.getD "",
              microsoftRedirectUri := origin ++ "/callback",
              clientType := clientType,
              request := oauthReqInfo,
              scope := Js.objGet oauthReqInfo "scope" }

end Handler

/- ==================================================================
   The main worker module: protocol router and token bridge
   ================================================================== -/

namespace Worker

/-- isApiTokenRequest: OAuth endpoints are skipped, a missing
    Authorization header on /mcp or /sse is discovery, a non-Bearer
    scheme never is, and a Bearer token is discovery exactly when it
    does not split into three colon-separated parts.  The Except error
    is the uncaught TypeError when the header is exactly "Bearer" with
    no following token. -/
def isApiTokenRequest (path : String) (authHeader : Option String) :
    Except Unit Bool :=
  if !JsPrim.jsStartsWith path "/mcp" && !JsPrim.jsStartsWith path "/sse" then
    .ok false
  else
    match authHeader with
    | none => .ok true
    | some h =>
      if h = "" then .ok true
      else
        let parts := JsPrim.jsSplit h " "
        let ty := parts.getD 0 ""
        if ty ≠ "Bearer" then .ok false
        else
          match parts[1]? with
          | none => .error ()
          | some token => .ok ((JsPrim.jsSplit token ":").length ≠ 3)

/-- handleApiTokenMode names the one Durable Object every discovery
    request is routed to. -/
def discoverySessionName : String := "discovery-session"

inductive Dispatch where
  | durableObject (name : String)
  | oauthProvider
  deriving Repr, BEq

/-- The worker fetch entry point, up to the choice between the discovery
    Durable Object and the OAuth provider. -/
def fetchRoute (path : String) (authHeader : Option String) :
    Except Unit Dispatch :=
  match isApiTokenRequest path authHeader with
  | .error e => .error e
  | .ok true => .ok (.durableObject discoverySessionName)
  | .ok false => .ok .oauthProvider

structure HttpResp where
  ok : Bool
  status : Nat
  body : String
  deriving Repr

structure UpstreamCall where
  url : String
  body : String
  deriving Repr

def microsoftTokenUrl (env : Handler.Env) : String :=
  "https://login.microsoftonline.com/" ++ env.MICROSOFT_TENANT_ID ++
    "/oauth2/v2.0/token"

/-- URLSearchParams body of the code-exchange POST, in insertion
    order. -/
def exchangeParamsBody (env : Handler.Env) (code redirectUri : String) :
    String :=
  "client_id=" ++ Handler.formUrlEncode env.MICROSOFT_CLIENT_ID ++
    "&client_secret=" ++ Handler.formUrlEncode env.MICROSOFT_CLIENT_SECRET ++
    "&code=" ++ Handler.formUrlEncode code ++
    "&redirect_uri=" ++ Handler.formUrlEncode redirectUri ++
    "&grant_type=" ++ Handler.formUrlEncode "authorization_code" ++
    "&scope=" ++ Handler.formUrlEncode Handler.authScope

/-- URLSearchParams body of the refresh POST, in insertion order. -/
def refreshParamsBody (env : Handler.Env) (refreshToken : String) : String :=
  "client_id=" ++ Handler.formUrlEncode env.MICROSOFT_CLIENT_ID ++
    "&client_secret=" ++ Handler.formUrlEncode env.MICROSOFT_CLIENT_SECRET ++
    "&refresh_token=" ++ Handler.formUrlEncode refreshToken ++
    "&grant_type=" ++ Handler.formUrlEncode "refresh_token" ++
    "&scope=" ++ Handler.formUrlEncode Handler.authScope

inductive ExchangeResult where
  | success (tokens : Json)
  | failure (message : String)
  | parseThrown
  deriving Repr

/-- exchangeMicrosoftTokens, abstracted over the one upstream HTTP
    response: a non-ok response throws an Error carrying the status and
    the body text; an ok response is parsed as JSON (parseThrown is the
    SyntaxError of response.json()).  The second component lists the
    upstream requests issued by one invocation. -/
def exchangeMicrosoftTokens (env : Handler.Env) (code redirectUri : String)
    (resp : HttpResp) : ExchangeResult × List UpstreamCall :=
  let call : UpstreamCall :=
    ⟨microsoftTokenUrl env, exchangeParamsBody env code redirectUri⟩
  if !resp.ok then
    (.failure ("Microsoft token exchange failed: " ++ toString resp.status ++
      " " ++ resp.body), [call])
  else
    match Js.jsonParse resp.body with
    | none => (.parseThrown, [call])
    | some j => (.success j, [call])

/-- refreshMicrosoftTokens, abstracted the same way. -/
def refreshMicrosoftTokens (env : Handler.Env) (refreshToken : String)
    (resp : HttpResp) : ExchangeResult × List UpstreamCall :=
  let call : UpstreamCall :=
    ⟨microsoftTokenUrl env, refreshParamsBody env refreshToken⟩
  if !resp.ok then
    (.failure ("Microsoft token refresh failed: " ++ toString resp.status ++
      " " ++ resp.body), [call])
  else
    match Js.jsonParse resp.body with
    | none => (.parseThrown, [call])
    | some j => (.success j, [call])

/-- OAuth-provider props: a partial map from property names to values
    (none both for an absent key and for an undefined value, which the
    worker only ever distinguishes by truthiness). -/
def Props := String → Option Json

/-- Object spread followed by explicit properties. -/
def setProps (p : Props) (updates : List (String × Option Json)) : Props :=
  fun k =>
    match updates.lookup k with
    | some v => v
    | none => p k

structure TokenCbResult where
  newProps : Props
  accessTokenTTL : Option Json

inductive CbError where
  | thrownMessage (msg : String)
  | thrownOther
  deriving Repr

/-- The tokenExchangeCallback of the live OAuthProvider configuration,
    abstracted over the upstream token-endpoint response for the one
    grant it serves. -/
def tokenExchangeCallback (env : Handler.Env) (grantType : String)
    (props : Props) (resp : HttpResp) : Except CbError TokenCbResult :=
  if grantType = "authorization_code" then
    let microsoftAuthCode := props "microsoftAuthCode"
    let redirectUri := props "microsoftRedirectUri"
    if !Js.jsTruthyOpt microsoftAuthCode then
      .error (.thrownMessage "No Microsoft authorization code available")
    else
      match (exchangeMicrosoftTokens env
          (Handler.jsStringOfOpt microsoftAuthCode)
          (Handler.jsStringOfOpt redirectUri) resp).1 with
      | .failure msg => .error (.thrownMessage msg)
      | .parseThrown => .error .thrownOther
      | .success j =>
        .ok { newProps := setProps props
                [("microsoftAccessToken", Js.objGet j "access_token"),
                 ("microsoftTokenType", Js.objGet j "token_type"),
                 ("microsoftScope", Js.objGet j "scope"),
                 ("microsoftRefreshToken", Js.objGet j "refresh_token")],
              accessTokenTTL := Js.objGet j "expires_in" }
  else if grantType = "refresh_token" then
    let refreshToken := props "microsoftRefreshToken"
    if !Js.jsTruthyOpt refreshToken then
      .error (.thrownMessage "No Microsoft refresh token available")
    else
      match (refreshMicrosoftTokens env
          (Handler.jsStringOfOpt refreshToken) resp).1 with
      | .failure msg => .error (.thrownMessage msg)
      | .parseThrown => .error .thrownOther
      | .success j =>
        .ok { newProps := setProps props
                [("microsoftAccessToken", Js.objGet j "access_token"),
                 ("microsoftTokenType", Js.objGet j "token_type"),
                 ("microsoftScope", Js.objGet j "scope"),
                 ("microsoftRefreshToken",
                   if Js.jsTruthyOpt (Js.objGet j "refresh_token") then
                     Js.objGet j "refresh_token"
                   else refreshToken)],
              accessTokenTTL := Js.objGet j "expires_in" }
  else .error (.thrownMessage ("Unsupported grant type: " ++ grantType))

end Worker

/- ==================================================================
   Helper lemmas
   ================================================================== -/

namespace Sha256

theorem wordBytes_lt {w b : Nat} (h : b ∈ wordBytes w) : b < 256 := by
  simp only [wordBytes, List.mem_cons, List.not_mem_nil, or_false] at h
  rcases h with rfl | rfl | rfl | rfl <;> exact Nat.mod_lt _ (by norm_num)

theorem sha256_all_lt {msg : List Nat} : ∀ b ∈ sha256 msg, b < 256 := by
  intro b hb
  simp only [sha256, List.mem_flatten, List.mem_map] at hb
  obtain ⟨_, ⟨w, _, rfl⟩, hbw⟩ := hb
  exact wordBytes_lt hbw

theorem sha256_ne_nil {msg : List Nat} : sha256 msg ≠ [] := by
  simp [sha256, wordBytes]

theorem hmac_all_lt {key msg : List Nat} : ∀ b ∈ hmacSha256 key msg, b < 256 :=
  sha256_all_lt

theorem hmac_ne_nil {key msg : List Nat} : hmacSha256 key msg ≠ [] :=
  sha256_ne_nil

end Sha256

namespace JsPrim

set_option maxRecDepth 8000 in
theorem hex_fin :
    ∀ b : Fin 256, jsParseInt16 (toHex2 (b : Nat)) = some ((b : Nat) : Int) ∧
      (toHex2 (b : Nat)).data.all (fun c => !isLineTerm c) = true := by
  decide

theorem toHex2_parse {b : Nat} (h : b < 256) :
    jsParseInt16 (toHex2 b) = some (b : Int) :=
  (hex_fin ⟨b, h⟩).1

theorem toHex2_nonterm {b : Nat} (h : b < 256) :
    ∀ c ∈ (toHex2 b).data, isLineTerm c = false := by
  have := (hex_fin ⟨b, h⟩).2
  simp only [List.all_eq_true, Bool.not_eq_eq_eq_not, Bool.not_true] at this
  exact this

theorem jsChunk12_cons2 {c1 c2 : Char} {rest : List Char}
    (h1 : isLineTerm c1 = false) (h2 : isLineTerm c2 = false) :
    jsChunk12 (c1 :: c2 :: rest) = String.mk [c1, c2] :: jsChunk12 rest := by
  simp [jsChunk12, h1, h2]

theorem join_data_aux (acc : String) (l : List String) :
    (l.foldl (fun r s => r ++ s) acc).data =
      acc.data ++ (l.map String.data).flatten := by
  induction l generalizing acc with
  | nil => simp
  | cons s rest ih =>
    simp only [List.foldl_cons, ih, List.map_cons, List.flatten_cons]
    simp [String.data_append]

theorem join_data (l : List String) :
    (String.join l).data = (l.map String.data).flatten := by
  simp [String.join, join_data_aux "" l]

theorem chunk_hex (l : List Nat) (h : ∀ b ∈ l, b < 256) :
    jsChunk12 (hexEncodeBytes l).data = l.map toHex2 := by
  induction l with
  | nil => simp [hexEncodeBytes, join_data, jsChunk12]
  | cons b rest ih =>
    have hb := h b (List.mem_cons_self b rest)
    have hrest : ∀ x ∈ rest, x < 256 := fun x hx => h x (List.mem_cons_of_mem _ hx)
    have hdata : (hexEncodeBytes (b :: rest)).data =
        (toHex2 b).data ++ (hexEncodeBytes rest).data := by
      simp [hexEncodeBytes, join_data]
    have h2 : (toHex2 b).data = [hexDigitChar (b / 16 % 16), hexDigitChar (b % 16)] := rfl
    have hc1 := toHex2_nonterm hb (hexDigitChar (b / 16 % 16)) (by rw [h2]; simp)
    have hc2 := toHex2_nonterm hb (hexDigitChar (b % 16)) (by rw [h2]; simp)
    rw [hdata, h2]
    simp only [List.cons_append, List.nil_append]
    rw [jsChunk12_cons2 hc1 hc2]
    rw [ih hrest]
    simp [toHex2]

theorem hex_roundtrip (l : List Nat) (h : ∀ b ∈ l, b < 256) (hne : l ≠ []) :
    jsHexDecodeBytes (hexEncodeBytes l) = some l := by
  have hmap : ∀ x ∈ l, ((fun ch => toUint8 (jsParseInt16 ch)) ∘ toHex2) x = id x := by
    intro x hx
    have hx2 := h x hx
    simp only [Function.comp_apply, id_eq]
    rw [toHex2_parse hx2]
    simp only [toUint8]
    omega
  cases l with
  | nil => exact absurd rfl hne
  | cons b reste =>
    have hchunk : jsChunk12 (hexEncodeBytes (b :: reste)).data =
        toHex2 b :: reste.map toHex2 := by
      rw [chunk_hex _ h]; rfl
    unfold jsHexDecodeBytes
    rw [hchunk]
    show some (((b :: reste).map toHex2).map (fun ch => toUint8 (jsParseInt16 ch)))
      = some (b :: reste)
    rw [List.map_map, List.map_congr_left hmap, List.map_id]

end JsPrim

namespace OauthUtils

/-- A freshly produced signature always verifies against its payload. -/
theorem verify_signData (secret payload : String) :
    verifySignature secret (signData secret payload) payload = true := by
  unfold verifySignature signData
  rw [JsPrim.hex_roundtrip _ Sha256.hmac_all_lt Sha256.hmac_ne_nil]
  simp

end OauthUtils

namespace JsPrim

/-- The 6-bit digit sequence of the base64 encoding, without padding. -/
def b64Digits : List Nat → List Nat
  | [] => []
  | [a] => [a / 4, a % 4 * 16]
  | [a, b] => [a / 4, a % 4 * 16 + b / 16, b % 16 * 4]
  | a :: b :: c :: rest =>
      a / 4 :: (a % 4 * 16 + b / 16) :: (b % 16 * 4 + c / 64) :: c % 64 ::
        b64Digits rest

/-- Number of '=' padding characters btoa appends. -/
def b64PadLen (l : List Nat) : Nat := (3 - l.length % 3) % 3

theorem b64Digits_decode (l : List Nat) (h : ∀ b ∈ l, b < 256) :
    atobDecodeVals (b64Digits l) = some l := by
  induction l using b64Digits.induct with
  | case1 => rfl
  | case2 a =>
    simp only [b64Digits, atobDecodeVals, Option.some.injEq, List.cons.injEq,
      and_true]
    omega
  | case3 a b =>
    have hb := h b (by simp)
    simp only [b64Digits, atobDecodeVals, Option.some.injEq, List.cons.injEq,
      and_true]
    omega
  | case4 a b c rest ih =>
    have hb := h b (by simp)
    have hc := h c (by simp)
    have hrest : ∀ x ∈ rest, x < 256 := fun x hx => h x (by simp [hx])
    simp only [b64Digits, atobDecodeVals, ih hrest, Option.map_some',
      Option.some.injEq, List.cons.injEq, and_true]
    refine ⟨by omega, by omega, by omega⟩

theorem b64Digits_lt (l : List Nat) (h : ∀ b ∈ l, b < 256) :
    ∀ v ∈ b64Digits l, v < 64 := by
  induction l using b64Digits.induct with
  | case1 => simp [b64Digits]
  | case2 a =>
    have := h a (by simp)
    simp only [b64Digits, List.mem_cons, List.not_mem_nil, or_false]
    rintro v (rfl | rfl) <;> omega
  | case3 a b =>
    have := h a (by simp)
    have := h b (by simp)
    simp only [b64Digits, List.mem_cons, List.not_mem_nil, or_false]
    rintro v (rfl | rfl | rfl) <;> omega
  | case4 a b c rest ih =>
    have := h a (by simp)
    have := h b (by simp)
    have := h c (by simp)
    have hrest : ∀ x ∈ rest, x < 256 := fun x hx => h x (by simp [hx])
    simp only [b64Digits, List.mem_cons]
    rintro v (rfl | rfl | rfl | rfl | hv)
    · omega
    · omega
    · omega
    · omega
    · exact ih hrest v hv

theorem b64PadLen_cons3 (a b c : Nat) (rest : List Nat) :
    b64PadLen (a :: b :: c :: rest) = b64PadLen rest := by
  simp only [b64PadLen, List.length_cons]
  omega

theorem btoaBytes_data (l : List Nat) :
    (btoaBytes l).data =
      (b64Digits l).map b64Char ++ List.replicate (b64PadLen l) '=' := by
  induction l using b64Digits.induct with
  | case1 => rfl
  | case2 a => rfl
  | case3 a b => rfl
  | case4 a b c rest ih =>
    show (String.mk _ ++ btoaBytes rest).data = _
    rw [String.data_append]
    rw [b64PadLen_cons3]
    simp only [b64Digits, List.map_cons]
    rw [ih]
    simp

set_option maxRecDepth 4000 in
theorem b64_fin : ∀ v : Fin 64,
    b64Value (b64Char (v : Nat)) = some (v : Nat) ∧
      isB64Ws (b64Char (v : Nat)) = false ∧ b64Char (v : Nat) ≠ '=' := by
  decide

theorem mapOption_b64 (ds : List Nat) (h : ∀ v ∈ ds, v < 64) :
    mapOption b64Value (ds.map b64Char) = some ds := by
  induction ds with
  | nil => rfl
  | cons d rest ih =>
    have hd := h d (by simp)
    have hrest : ∀ v ∈ rest, v < 64 := fun v hv => h v (by simp [hv])
    simp only [List.map_cons, mapOption, (b64_fin ⟨d, hd⟩).1, ih hrest,
      Option.map_some']

theorem b64Digits_len (l : List Nat) :
    (b64Digits l).length % 4 ≠ 1 ∧
      ((b64Digits l).length + b64PadLen l) % 4 = 0 := by
  induction l using b64Digits.induct with
  | case1 => simp [b64Digits, b64PadLen]
  | case2 a => simp [b64Digits, b64PadLen]
  | case3 a b => simp [b64Digits, b64PadLen]
  | case4 a b c rest ih =>
    simp only [b64Digits, List.length_cons, b64PadLen_cons3]
    omega

theorem b64Digits_ne_nil (l : List Nat) (h : l ≠ []) : b64Digits l ≠ [] := by
  match l with
  | [] => exact absurd rfl h
  | [a] => simp [b64Digits]
  | [a, b] => simp [b64Digits]
  | a :: b :: c :: rest => simp [b64Digits]

theorem dropEq2_head_ne {x : Char} (xs : List Char) (hx : x ≠ '=') :
    dropEq2 (x :: xs) = x :: xs := by
  unfold dropEq2
  split <;> simp_all

theorem dropEq2_one {y : Char} (xs : List Char) (hy : y ≠ '=') :
    dropEq2 ('=' :: y :: xs) = y :: xs := by
  unfold dropEq2
  split <;> simp_all

theorem atob_btoaBytes (l : List Nat) (h : ∀ b ∈ l, b < 256) :
    atob (btoaBytes l) = some (String.mk (l.map Char.ofNat)) := by
  have hlt := b64Digits_lt l h
  have hne : ∀ c ∈ (b64Digits l).map b64Char, c ≠ '=' := by
    intro c hc
    obtain ⟨v, hv, rfl⟩ := List.mem_map.mp hc
    exact (b64_fin ⟨v, hlt v hv⟩).2.2
  have hfilter : (btoaBytes l).data.filter (fun c => !isB64Ws c) =
      (b64Digits l).map b64Char ++ List.replicate (b64PadLen l) '=' := by
    rw [btoaBytes_data]
    apply List.filter_eq_self.mpr
    intro c hc
    rcases List.mem_append.mp hc with hm | hp
    · obtain ⟨v, hv, rfl⟩ := List.mem_map.mp hm
      simp [(b64_fin ⟨v, hlt v hv⟩).2.1]
    · rw [List.eq_of_mem_replicate hp]
      decide
  have hlen : ((b64Digits l).map b64Char ++
      List.replicate (b64PadLen l) '=').length % 4 = 0 := by
    simp only [List.length_append, List.length_map, List.length_replicate]
    exact (b64Digits_len l).2
  have htrim : atobTrimEq ((b64Digits l).map b64Char ++
      List.replicate (b64PadLen l) '=') = (b64Digits l).map b64Char := by
    unfold atobTrimEq
    rw [if_pos hlen, List.reverse_append, List.reverse_replicate]
    have hpad : b64PadLen l = 0 ∨ b64PadLen l = 1 ∨ b64PadLen l = 2 := by
      unfold b64PadLen
      omega
    rcases hpad with hp | hp | hp
    · rw [hp]
      simp only [List.replicate, List.nil_append]
      by_cases hnil : (b64Digits l).map b64Char = []
      · rw [hnil]
        rfl
      · have hrne : ((b64Digits l).map b64Char).reverse ≠ [] := by
          simpa using hnil
        obtain ⟨c, t, hct⟩ := List.exists_cons_of_ne_nil hrne
        have hcm : c ∈ (b64Digits l).map b64Char :=
          List.mem_reverse.mp (hct ▸ List.mem_cons_self c t)
        rw [hct, dropEq2_head_ne t (hne c hcm), ← hct, List.reverse_reverse]
    · rw [hp]
      have hnil : b64Digits l ≠ [] := by
        apply b64Digits_ne_nil
        intro he
        rw [he] at hp
        simp [b64PadLen] at hp
      have hmapne : (b64Digits l).map b64Char ≠ [] := by
        simpa using hnil
      have hrne : ((b64Digits l).map b64Char).reverse ≠ [] := by
        simpa using hmapne
      obtain ⟨c, t, hct⟩ := List.exists_cons_of_ne_nil hrne
      have hcm : c ∈ (b64Digits l).map b64Char :=
        List.mem_reverse.mp (hct ▸ List.mem_cons_self c t)
      simp only [List.replicate, List.cons_append, List.nil_append]
      rw [hct, dropEq2_one t (hne c hcm), ← hct, List.reverse_reverse]
    · rw [hp]
      simp only [List.replicate, List.cons_append, List.nil_append]
      rw [show dropEq2 ('=' :: '=' :: ((b64Digits l).map b64Char).reverse) =
        ((b64Digits l).map b64Char).reverse from rfl]
      rw [List.reverse_reverse]
  have hne1 : (((b64Digits l).map b64Char).length % 4 == 1) = false := by
    simp only [List.length_map, beq_eq_false_iff_ne, ne_eq]
    exact (b64Digits_len l).1
  unfold atob
  rw [hfilter, htrim]
  simp only [hne1, Bool.false_eq_true, if_false,
    mapOption_b64 _ (b64Digits_lt l h), Option.bind_eq_bind, Option.some_bind,
    b64Digits_decode l h]

theorem atob_btoa {s t : String} (h : ∀ c ∈ s.data, c.toNat < 256)
    (ht : btoa s = some t) : atob t = some s := by
  have hall : (s.data.all fun c => decide (c.toNat < 256)) = true :=
    List.all_eq_true.mpr (fun c hc => decide_eq_true (h c hc))
  have hb : ∀ b ∈ s.data.map Char.toNat, b < 256 := by
    intro b hbm
    obtain ⟨c, hc, rfl⟩ := List.mem_map.mp hbm
    exact h c hc
  unfold btoa at ht
  rw [if_pos hall] at ht
  have ht3 := Option.some.inj ht
  rw [← ht3, atob_btoaBytes _ hb, List.map_map]
  have hcongr : s.data.map (Char.ofNat ∘ Char.toNat) = s.data.map id :=
    List.map_congr_left (fun c _ => by simp [Function.comp, Char.ofNat_toNat])
  rw [hcongr, List.map_id]

end JsPrim

/- ==================================================================
   Claim theorems
   ================================================================== -/

/-- C10: discovery classification is gated on the request path before
    any credential is inspected: off /mcp and /sse, isApiTokenRequest is
    false even with no Authorization header; on those paths a missing
    header is always discovery; and a non-Bearer scheme is never
    discovery regardless of the token shape. -/
theorem c10_router_path_gate :
    (∀ path auth, JsPrim.jsStartsWith path "/mcp" = false →
      JsPrim.jsStartsWith path "/sse" = false →
      Worker.isApiTokenRequest path auth = .ok false) ∧
    (∀ path, (JsPrim.jsStartsWith path "/mcp" = true ∨
        JsPrim.jsStartsWith path "/sse" = true) →
      Worker.isApiTokenRequest path none = .ok true) ∧
    (∀ path h, h ≠ "" → (JsPrim.jsSplit h " ").getD 0 "" ≠ "Bearer" →
      Worker.isApiTokenRequest path (some h) = .ok false) := by
  refine ⟨?_, ?_, ?_⟩
  · intro path auth h1 h2
    unfold Worker.isApiTokenRequest
    simp [h1, h2]
  · intro path hp
    unfold Worker.isApiTokenRequest
    rcases hp with hp | hp <;> simp [hp]
  · intro path h hne hty
    unfold Worker.isApiTokenRequest
    have hty2 : ((JsPrim.jsSplit h " ").getD 0 "" = "Bearer") = False := by
      simp only [eq_iff_iff, iff_false]
      exact hty
    by_cases hp : JsPrim.jsStartsWith path "/mcp" = true
    · simp [hp, hne, List.getD_eq_getElem?_getD] at hty2 ⊢
      intro hEq
      exact absurd hEq hty2
    · by_cases hq : JsPrim.jsStartsWith path "/sse" = true
      · simp [hp, hq, hne, List.getD_eq_getElem?_getD] at hty2 ⊢
        intro hEq
        exact absurd hEq hty2
      · simp [hp, hq]

/-- C10 witness: a non-router path with no credential is not discovery;
    a router path with no header is discovery; a Basic credential on a
    router path is not discovery. -/
theorem c10_router_path_gate_witness :
    Worker.isApiTokenRequest "/token" none = .ok false ∧
    Worker.isApiTokenRequest "/sse" none = .ok true ∧
    Worker.isApiTokenRequest "/mcp" (some "Basic xyz") = .ok false :=
  ⟨c10_router_path_gate.1 "/token" none (by decide) (by decide),
   c10_router_path_gate.2.1 "/sse" (Or.inr (by decide)),
   c10_router_path_gate.2.2 "/mcp" "Basic xyz" (by decide) (by decide)⟩

/-- C1: on the multiplexed endpoint, a request whose bearer credential
    does not split into exactly three colon-delimited segments (the
    shape of the session tokens the authorization layer issues) — or
    which carries no credential at all — is dispatched to the Durable
    Object named by the fixed constant "discovery-session", and a
    three-segment credential is instead routed to the OAuth provider,
    never the discovery actor. -/
theorem c1_discovery_routing :
    ∀ path h cred,
      (JsPrim.jsStartsWith path "/mcp" = true ∨
        JsPrim.jsStartsWith path "/sse" = true) →
      JsPrim.jsSplit h " " = ["Bearer", cred] →
      (((JsPrim.jsSplit cred ":").length ≠ 3 →
          Worker.fetchRoute path (some h) =
            .ok (.durableObject "discovery-session")) ∧
        ((JsPrim.jsSplit cred ":").length = 3 →
          Worker.fetchRoute path (some h) = .ok .oauthProvider)) ∧
      Worker.fetchRoute path none = .ok (.durableObject "discovery-session") := by
  intro path h cred hpath hsplit
  have hne : h ≠ "" := by
    intro he
    subst he
    rw [show JsPrim.jsSplit "" " " = [""] from rfl] at hsplit
    injection hsplit with h1 h2
    exact absurd h1 (by decide)
  have hroute : ∀ b, Worker.isApiTokenRequest path (some h) = .ok b →
      Worker.fetchRoute path (some h) =
        .ok (if b then .durableObject "discovery-session"
             else .oauthProvider) := by
    intro b hb
    unfold Worker.fetchRoute
    rw [hb]
    cases b <;> rfl
  refine ⟨⟨?_, ?_⟩, ?_⟩
  · intro hlen
    have hapi : Worker.isApiTokenRequest path (some h) = .ok true := by
      unfold Worker.isApiTokenRequest
      rcases hpath with hp | hp <;> simp [hp, hne, hsplit, hlen]
    simpa using hroute true hapi
  · intro hlen
    have hapi : Worker.isApiTokenRequest path (some h) = .ok false := by
      unfold Worker.isApiTokenRequest
      rcases hpath with hp | hp <;> simp [hp, hne, hsplit, hlen]
    simpa using hroute false hapi
  · have hnone : Worker.isApiTokenRequest path none = .ok true :=
      c10_router_path_gate.2.1 path hpath
    unfold Worker.fetchRoute
    rw [hnone]
    rfl

/-- C1 witness: on /sse a two-segment bearer credential and an empty
    bearer credential are routed to the discovery actor, and a
    three-segment credential goes to the OAuth provider. -/
theorem c1_discovery_routing_witness :
    Worker.fetchRoute "/sse" (some "Bearer a:b") =
      .ok (.durableObject "discovery-session") ∧
    Worker.fetchRoute "/mcp" (some "Bearer ") =
      .ok (.durableObject "discovery-session") ∧
    Worker.fetchRoute "/sse" (some "Bearer a:b:c") = .ok .oauthProvider :=
  ⟨((c1_discovery_routing "/sse" "Bearer a:b" "a:b" (Or.inr (by decide))
      (by decide)).1).1 (by decide),
   ((c1_discovery_routing "/mcp" "Bearer " "" (Or.inl (by decide))
      (by decide)).1).1 (by decide),
   ((c1_discovery_routing "/sse" "Bearer a:b:c" "a:b:c" (Or.inr (by decide))
      (by decide)).1).2 (by decide)⟩

/-- C7: a non-success upstream response to the code exchange yields a
    thrown failure carrying the upstream HTTP status and the upstream
    body verbatim, and each invocation issues exactly one upstream
    POST — no retry. -/
theorem c7_exchange_failure :
    ∀ env code redirectUri resp,
      (Worker.exchangeMicrosoftTokens env code redirectUri resp).2.length = 1 ∧
      (resp.ok = false →
        (Worker.exchangeMicrosoftTokens env code redirectUri resp).1 =
          .failure ("Microsoft token exchange failed: " ++
            toString resp.status ++ " " ++ resp.body)) := by
  intro env code redirectUri resp
  unfold Worker.exchangeMicrosoftTokens
  constructor
  · by_cases h : resp.ok
    · simp only [h]
      cases Js.jsonParse resp.body <;> simp
    · simp [h]
  · intro h
    simp [h]

/-- C7 witness: a 400 upstream response surfaces status 400 and the body
    text inside the thrown message, from a single upstream call. -/
theorem c7_exchange_failure_witness :
    (Worker.exchangeMicrosoftTokens ⟨"cid", "tid", "sec", "ck"⟩ "CODE"
      "https://w.example/callback" ⟨false, 400, "invalid_grant body"⟩).1 =
      .failure "Microsoft token exchange failed: 400 invalid_grant body" ∧
    (Worker.exchangeMicrosoftTokens ⟨"cid", "tid", "sec", "ck"⟩ "CODE"
      "https://w.example/callback" ⟨false, 400, "invalid_grant body"⟩).2.length
      = 1 :=
  ⟨(c7_exchange_failure ⟨"cid", "tid", "sec", "ck"⟩ "CODE"
      "https://w.example/callback" ⟨false, 400, "invalid_grant body"⟩).2 rfl,
   (c7_exchange_failure ⟨"cid", "tid", "sec", "ck"⟩ "CODE"
      "https://w.example/callback" ⟨false, 400, "invalid_grant body"⟩).1⟩

/-- C6: for a successful code exchange and a successful refresh, the
    session-credential TTL returned by the callback is exactly the
    expires_in value of the upstream token response. -/
theorem c6_ttl_mirrors_upstream :
    ∀ env props resp j,
      resp.ok = true → Js.jsonParse resp.body = some j →
      (Js.jsTruthyOpt (props "microsoftAuthCode") = true →
        ∃ r, Worker.tokenExchangeCallback env "authorization_code" props resp
            = .ok r ∧ r.accessTokenTTL = Js.objGet j "expires_in") ∧
      (Js.jsTruthyOpt (props "microsoftRefreshToken") = true →
        ∃ r, Worker.tokenExchangeCallback env "refresh_token" props resp
            = .ok r ∧ r.accessTokenTTL = Js.objGet j "expires_in") := by
  intro env props resp j hok hparse
  constructor
  · intro htruthy
    have hex : (Worker.exchangeMicrosoftTokens env
        (Handler.jsStringOfOpt (props "microsoftAuthCode"))
        (Handler.jsStringOfOpt (props "microsoftRedirectUri")) resp).1 =
        .success j := by
      unfold Worker.exchangeMicrosoftTokens
      simp [hok, hparse]
    refine ⟨⟨Worker.setProps props
        [("microsoftAccessToken", Js.objGet j "access_token"),
         ("microsoftTokenType", Js.objGet j "token_type"),
         ("microsoftScope", Js.objGet j "scope"),
         ("microsoftRefreshToken", Js.objGet j "refresh_token")],
        Js.objGet j "expires_in"⟩, ?_, rfl⟩
    unfold Worker.tokenExchangeCallback
    rw [if_pos rfl]
    simp only [htruthy, Bool.not_true, Bool.false_eq_true, if_false, hex]
  · intro htruthy
    have hex : (Worker.refreshMicrosoftTokens env
        (Handler.jsStringOfOpt (props "microsoftRefreshToken")) resp).1 =
        .success j := by
      unfold Worker.refreshMicrosoftTokens
      simp [hok, hparse]
    refine ⟨⟨Worker.setProps props
        [("microsoftAccessToken", Js.objGet j "access_token"),
         ("microsoftTokenType", Js.objGet j "token_type"),
         ("microsoftScope", Js.objGet j "scope"),
         ("microsoftRefreshToken",
           if Js.jsTruthyOpt (Js.objGet j "refresh_token") then
             Js.objGet j "refresh_token"
           else props "microsoftRefreshToken")],
        Js.objGet j "expires_in"⟩, ?_, rfl⟩
    unfold Worker.tokenExchangeCallback
    rw [if_neg (by decide), if_pos rfl]
    simp only [htruthy, Bool.not_true, Bool.false_eq_true, if_false, hex]

/-- C6 witness: a 3600-second expires_in from the upstream (num 36 2
    denotes 36 * 10^2 = 3600) becomes the callback TTL on the exchange
    branch. -/
theorem c6_ttl_mirrors_upstream_witness :
    ∃ r, Worker.tokenExchangeCallback ⟨"cid", "tid", "sec", "ck"⟩
        "authorization_code"
        (fun k => if k = "microsoftAuthCode" then some (Json.str "MSCODE")
          else if k = "microsoftRedirectUri" then
            some (Json.str "https://w.example/callback")
          else if k = "microsoftRefreshToken" then some (Json.str "RT")
          else if k = "a" then some (Json.str "keepme") else none)
        ⟨true, 200, "\x7b\"access_token\":\"AT2\",\"token_type\":\"Bearer\",\"scope\":\"s\",\"expires_in\":3600\x7d"⟩
        = .ok r ∧ r.accessTokenTTL = some (Json.num 36 2) :=
  (c6_ttl_mirrors_upstream ⟨"cid", "tid", "sec", "ck"⟩
    (fun k => if k = "microsoftAuthCode" then some (Json.str "MSCODE")
      else if k = "microsoftRedirectUri" then
        some (Json.str "https://w.example/callback")
      else if k = "microsoftRefreshToken" then some (Json.str "RT")
      else if k = "a" then some (Json.str "keepme") else none)
    ⟨true, 200, "\x7b\"access_token\":\"AT2\",\"token_type\":\"Bearer\",\"scope\":\"s\",\"expires_in\":3600\x7d"⟩
    (Json.obj [("access_token", Json.str "AT2"),
      ("token_type", Json.str "Bearer"), ("scope", Json.str "s"),
      ("expires_in", Json.num 36 2)]) rfl (by rfl)).1 rfl

/-- C5: on a successful refresh the callback returns the prior props
    with only the four Microsoft token fields overlaid: every other
    field is unchanged, the access token is replaced, the prior refresh
    token is retained when the upstream response omits one, and an
    upstream-rotated refresh token replaces the prior one. -/
theorem c5_refresh_merge :
    ∀ env props resp j rt,
      props "microsoftRefreshToken" = some rt →
      Js.jsTruthy rt = true →
      resp.ok = true →
      Js.jsonParse resp.body = some j →
      ∃ r, Worker.tokenExchangeCallback env "refresh_token" props resp
          = .ok r ∧
        (∀ k, k ≠ "microsoftAccessToken" → k ≠ "microsoftTokenType" →
          k ≠ "microsoftScope" → k ≠ "microsoftRefreshToken" →
          r.newProps k = props k) ∧
        r.newProps "microsoftAccessToken" = Js.objGet j "access_token" ∧
        (Js.objGet j "refresh_token" = none →
          r.newProps "microsoftRefreshToken" = some rt) ∧
        (∀ rj, Js.objGet j "refresh_token" = some rj → Js.jsTruthy rj = true →
          r.newProps "microsoftRefreshToken" = some rj) := by
  intro env props resp j rt hrt htruthy hok hparse
  have htr : Js.jsTruthyOpt (props "microsoftRefreshToken") = true := by
    rw [hrt]
    exact htruthy
  have hex : (Worker.refreshMicrosoftTokens env
      (Handler.jsStringOfOpt (props "microsoftRefreshToken")) resp).1 =
      .success j := by
    unfold Worker.refreshMicrosoftTokens
    simp [hok, hparse]
  refine ⟨⟨Worker.setProps props
      [("microsoftAccessToken", Js.objGet j "access_token"),
       ("microsoftTokenType", Js.objGet j "token_type"),
       ("microsoftScope", Js.objGet j "scope"),
       ("microsoftRefreshToken",
         if Js.jsTruthyOpt (Js.objGet j "refresh_token") then
           Js.objGet j "refresh_token"
         else props "microsoftRefreshToken")],
      Js.objGet j "expires_in"⟩, ?_, ?_, ?_, ?_, ?_⟩
  · unfold Worker.tokenExchangeCallback
    rw [if_neg (by decide), if_pos rfl]
    simp only [htr, Bool.not_true, Bool.false_eq_true, if_false, hex]
  · intro k h1 h2 h3 h4
    have e1 : (k == "microsoftAccessToken") = false := beq_eq_false_iff_ne.mpr h1
    have e2 : (k == "microsoftTokenType") = false := beq_eq_false_iff_ne.mpr h2
    have e3 : (k == "microsoftScope") = false := beq_eq_false_iff_ne.mpr h3
    have e4 : (k == "microsoftRefreshToken") = false :=
      beq_eq_false_iff_ne.mpr h4
    simp only [Worker.setProps, List.lookup, e1, e2, e3, e4]
  · rfl
  · intro hnone
    have hred : Worker.setProps props
        [("microsoftAccessToken", Js.objGet j "access_token"),
         ("microsoftTokenType", Js.objGet j "token_type"),
         ("microsoftScope", Js.objGet j "scope"),
         ("microsoftRefreshToken",
           if Js.jsTruthyOpt (Js.objGet j "refresh_token") then
             Js.objGet j "refresh_token"
           else props "microsoftRefreshToken")] "microsoftRefreshToken" =
        (if Js.jsTruthyOpt (Js.objGet j "refresh_token") then
          Js.objGet j "refresh_token"
        else props "microsoftRefreshToken") := rfl
    show Worker.setProps props
        [("microsoftAccessToken", Js.objGet j "access_token"),
         ("microsoftTokenType", Js.objGet j "token_type"),
         ("microsoftScope", Js.objGet j "scope"),
         ("microsoftRefreshToken",
           if Js.jsTruthyOpt (Js.objGet j "refresh_token") then
             Js.objGet j "refresh_token"
           else props "microsoftRefreshToken")] "microsoftRefreshToken" =
      some rt
    rw [hred, hnone, hrt]
    rfl
  · intro rj hrj htrj
    have hred : Worker.setProps props
        [("microsoftAccessToken", Js.objGet j "access_token"),
         ("microsoftTokenType", Js.objGet j "token_type"),
         ("microsoftScope", Js.objGet j "scope"),
         ("microsoftRefreshToken",
           if Js.jsTruthyOpt (Js.objGet j "refresh_token") then
             Js.objGet j "refresh_token"
           else props "microsoftRefreshToken")] "microsoftRefreshToken" =
        (if Js.jsTruthyOpt (Js.objGet j "refresh_token") then
          Js.objGet j "refresh_token"
        else props "microsoftRefreshToken") := rfl
    show Worker.setProps props
        [("microsoftAccessToken", Js.objGet j "access_token"),
         ("microsoftTokenType", Js.objGet j "token_type"),
         ("microsoftScope", Js.objGet j "scope"),
         ("microsoftRefreshToken",
           if Js.jsTruthyOpt (Js.objGet j "refresh_token") then
             Js.objGet j "refresh_token"
           else props "microsoftRefreshToken")] "microsoftRefreshToken" =
      some rj
    rw [hred, hrj]
    simp [Js.jsTruthyOpt, htrj]

/-- C5 witness: with prior props containing an unrelated field a, an
    access token and refresh token RT, a refresh response carrying only
    a new access token leaves a and RT in place and replaces the access
    token. -/
theorem c5_refresh_merge_witness :
    ∃ r, Worker.tokenExchangeCallback ⟨"cid", "tid", "sec", "ck"⟩
        "refresh_token"
        (fun k => if k = "microsoftAuthCode" then some (Json.str "MSCODE")
          else if k = "microsoftRedirectUri" then
            some (Json.str "https://w.example/callback")
          else if k = "microsoftRefreshToken" then some (Json.str "RT")
          else if k = "a" then some (Json.str "keepme") else none)
        ⟨true, 200, "\x7b\"access_token\":\"AT2\",\"token_type\":\"Bearer\",\"scope\":\"s\",\"expires_in\":3600\x7d"⟩
        = .ok r ∧
      r.newProps "a" = some (Json.str "keepme") ∧
      r.newProps "microsoftAccessToken" = some (Json.str "AT2") ∧
      r.newProps "microsoftRefreshToken" = some (Json.str "RT") := by
  obtain ⟨r, hr, hframe, hacc, hkeep, _⟩ :=
    c5_refresh_merge ⟨"cid", "tid", "sec", "ck"⟩
      (fun k => if k = "microsoftAuthCode" then some (Json.str "MSCODE")
        else if k = "microsoftRedirectUri" then
          some (Json.str "https://w.example/callback")
        else if k = "microsoftRefreshToken" then some (Json.str "RT")
        else if k = "a" then some (Json.str "keepme") else none)
      ⟨true, 200, "\x7b\"access_token\":\"AT2\",\"token_type\":\"Bearer\",\"scope\":\"s\",\"expires_in\":3600\x7d"⟩
      (Json.obj [("access_token", Json.str "AT2"),
        ("token_type", Json.str "Bearer"), ("scope", Json.str "s"),
        ("expires_in", Json.num 36 2)]) (Json.str "RT") rfl rfl rfl (by rfl)
  exact ⟨r, hr,
    (hframe "a" (by decide) (by decide) (by decide) (by decide)).trans rfl,
    hacc.trans (by rfl), hkeep (by rfl)⟩

/-- C2 counterexample: a cookie whose payload segment is not decodable
    base64 makes the uncaught atob error propagate out of
    getApprovedClientsFromCookie and clientIdAlreadyApproved (the Except
    error), instead of yielding the empty record null / false as the
    claim states. -/
theorem c2_counterexample :
    OauthUtils.getApprovedClientsFromCookie
      (some "mcp-approved-clients=ab.%%%") "secret" = .error () ∧
    OauthUtils.clientIdAlreadyApproved
      (some "mcp-approved-clients=ab.%%%") "c1" "secret" = .error () :=
  ⟨rfl, rfl⟩

/-- C2 amended: with a non-empty secret, every handled malformation of
    the approval cookie — wrong signature.payload segment count, a
    failing signature check, undecodable JSON, or JSON that is not an
    array of strings — yields the empty record (ok none), and an empty
    record makes clientIdAlreadyApproved false for every client id; but
    a payload segment that is not decodable base64 raises the uncaught
    atob error (which still never grants approval). -/
theorem c2_tampered_cookie_void :
    ∀ ch secret target,
      secret ≠ "" →
      ((JsPrim.jsSplit ch ";").map OauthUtils.jsTrim).find?
          (fun c => JsPrim.jsStartsWith c (OauthUtils.COOKIE_NAME ++ "="))
        = some target →
      ((JsPrim.jsSplit (JsPrim.jsSubstringFrom target
            (OauthUtils.COOKIE_NAME.length + 1)) ".").length ≠ 2 →
        OauthUtils.getApprovedClientsFromCookie (some ch) secret = .ok none) ∧
      (∀ sigHex b64,
        JsPrim.jsSplit (JsPrim.jsSubstringFrom target
            (OauthUtils.COOKIE_NAME.length + 1)) "." = [sigHex, b64] →
        (JsPrim.atob b64 = none →
          OauthUtils.getApprovedClientsFromCookie (some ch) secret
            = .error ()) ∧
        (∀ payload, JsPrim.atob b64 = some payload →
          (OauthUtils.verifySignature secret sigHex payload = false →
            OauthUtils.getApprovedClientsFromCookie (some ch) secret
              = .ok none) ∧
          (OauthUtils.verifySignature secret sigHex payload = true →
            (Js.jsonParse payload = none →
              OauthUtils.getApprovedClientsFromCookie (some ch) secret
                = .ok none) ∧
            (∀ j, Js.jsonParse payload = some j →
              (match j with
               | Json.arr elems => elems.all
                   (fun e => match e with
                    | Json.str _ => true
                    | _ => false) = false
               | _ => True) →
              OauthUtils.getApprovedClientsFromCookie (some ch) secret
                = .ok none)))) ∧
      (∀ cid, OauthUtils.getApprovedClientsFromCookie (some ch) secret
          = .ok none →
        OauthUtils.clientIdAlreadyApproved (some ch) cid secret
          = .ok false) := by
  intro ch secret target hsec hfind
  have hchne : ch ≠ "" := by
    intro he
    subst he
    rw [show ((JsPrim.jsSplit "" ";").map OauthUtils.jsTrim).find?
        (fun c => JsPrim.jsStartsWith c (OauthUtils.COOKIE_NAME ++ "="))
        = none from rfl] at hfind
    cases hfind
  have hbase : ∀ sigHex b64,
      JsPrim.jsSplit (JsPrim.jsSubstringFrom target
        (OauthUtils.COOKIE_NAME.length + 1)) "." = [sigHex, b64] →
      OauthUtils.getApprovedClientsFromCookie (some ch) secret =
        (match JsPrim.atob b64 with
         | none => .error ()
         | some payload =>
           if secret = "" then .error ()
           else if !OauthUtils.verifySignature secret sigHex payload then
             .ok none
           else
             match Js.jsonParse payload with
             | none => .ok none
             | some j =>
               match j with
               | Json.arr elems =>
                 if elems.all (fun e => match e with
                     | Json.str _ => true
                     | _ => false) then
                   .ok (some (elems.map (fun e => match e with
                     | Json.str s => s
                     | _ => "")))
                 else .ok none
               | _ => .ok none) := by
    intro sigHex b64 hparts
    simp only [OauthUtils.getApprovedClientsFromCookie, if_neg hchne, hfind,
      hparts]
    rfl
  refine ⟨?_, ?_, ?_⟩
  · intro hlen
    simp only [OauthUtils.getApprovedClientsFromCookie, if_neg hchne, hfind]
    rw [if_pos hlen]
  · intro sigHex b64 hparts
    have hb := hbase sigHex b64 hparts
    constructor
    · intro hatob
      rw [hb, hatob]
    · intro payload hatob
      constructor
      · intro hver
        rw [hb, hatob]
        simp only [if_neg hsec, hver, Bool.not_false, if_true]
      · intro hver
        constructor
        · intro hjson
          rw [hb, hatob]
          simp only [if_neg hsec, hver, Bool.not_true, Bool.false_eq_true,
            if_false, hjson]
        · intro j hjson hnotarr
          rw [hb, hatob]
          simp only [if_neg hsec, hver, Bool.not_true, Bool.false_eq_true,
            if_false, hjson]
          match j, hnotarr with
          | Json.arr elems, hnotarr => simp [hnotarr]
          | Json.null, _ => rfl
          | Json.bool b, _ => rfl
          | Json.num m e, _ => rfl
          | Json.str s, _ => rfl
          | Json.obj f, _ => rfl
  · intro cid hnone
    unfold OauthUtils.clientIdAlreadyApproved
    by_cases hc : cid = ""
    · rw [if_pos hc]
    · rw [if_neg hc, hnone]

set_option maxRecDepth 200000 in
/-- C2 witness: a cookie whose signature segment fails verification
    yields the empty record and no approval for the listed client. -/
theorem c2_tampered_cookie_void_witness :
    OauthUtils.getApprovedClientsFromCookie
      (some "mcp-approved-clients=00.WyJjMSJd") "secret" = .ok none ∧
    OauthUtils.clientIdAlreadyApproved
      (some "mcp-approved-clients=00.WyJjMSJd") "c1" "secret" = .ok false := by
  have h := c2_tampered_cookie_void "mcp-approved-clients=00.WyJjMSJd"
    "secret" "mcp-approved-clients=00.WyJjMSJd" (by decide) (by rfl)
  have hnone :=
    ((h.2.1 "00" "WyJjMSJd" (by rfl)).2 "[\"c1\"]" (by rfl)).1 (by rfl)
  exact ⟨hnone, h.2.2 "c1" hnone⟩

def mapIdxAux (f : Nat → Char → Char) : Nat → List Char → List Char
  | _, [] => []
  | i, c :: rest => f i c :: mapIdxAux f (i + 1) rest

/-- The string with bit b of the character at index i flipped (the
    single-bit corruption the signing round-trip property quantifies
    over). -/
def bitFlipAt (s : String) (i b : Nat) : String :=
  String.mk (mapIdxAux
    (fun j c => if j = i then Char.ofNat (c.toNat ^^^ (1 <<< b)) else c)
    0 s.data)

set_option maxRecDepth 300000 in
set_option maxHeartbeats 2000000 in
/-- C4 counterexample: flipping bit 5 of the hex character at index 3 of
    a valid signature only toggles the case of the hex digit b; the
    case-insensitive hex decoding in verifySignature decodes it to the
    same byte, so the corrupted signature still verifies. -/
theorem c4_bitflip_counterexample :
    bitFlipAt (OauthUtils.signData "k" "[]") 3 5 ≠
      OauthUtils.signData "k" "[]" ∧
    OauthUtils.verifySignature "k"
      (bitFlipAt (OauthUtils.signData "k" "[]") 3 5) "[]" = true := by
  constructor
  · decide
  · rfl

/-- C4 amended: signing round-trips (verify accepts sign's output for
    every payload and non-empty key); corrupting the signature falsifies
    verification exactly when it changes the decoded signature bytes,
    and corrupting the payload falsifies it exactly when it changes the
    payload's HMAC — a bit flip that only toggles the case of a hex
    digit of the signature changes neither and is still accepted. -/
theorem c4_sign_verify :
    (∀ secret payload, secret ≠ "" →
      OauthUtils.verifySignature secret (OauthUtils.signData secret payload)
        payload = true) ∧
    (∀ secret payload sig sig2,
      OauthUtils.verifySignature secret sig payload = true →
      JsPrim.jsHexDecodeBytes sig2 ≠ JsPrim.jsHexDecodeBytes sig →
      OauthUtils.verifySignature secret sig2 payload = false) ∧
    (∀ secret payload payload2 sig,
      OauthUtils.verifySignature secret sig payload = true →
      Sha256.hmacSha256 (JsPrim.utf8Encode secret)
          (JsPrim.utf8Encode payload2) ≠
        Sha256.hmacSha256 (JsPrim.utf8Encode secret)
          (JsPrim.utf8Encode payload) →
      OauthUtils.verifySignature secret sig payload2 = false) := by
  refine ⟨fun secret payload _ => OauthUtils.verify_signData secret payload,
    ?_, ?_⟩
  · intro secret payload sig sig2 hver hneq
    unfold OauthUtils.verifySignature at hver ⊢
    cases hd : JsPrim.jsHexDecodeBytes sig with
    | none => rw [hd] at hver; cases hver
    | some bytes =>
      rw [hd] at hver
      have hbytes : bytes = Sha256.hmacSha256 (JsPrim.utf8Encode secret)
          (JsPrim.utf8Encode payload) := eq_of_beq hver
      cases hd2 : JsPrim.jsHexDecodeBytes sig2 with
      | none => rfl
      | some b2 =>
        apply beq_eq_false_iff_ne.mpr
        intro hcontra
        apply hneq
        rw [hd2, hd]
        exact congrArg some (hcontra.trans hbytes.symm)
  · intro secret payload payload2 sig hver hneq
    unfold OauthUtils.verifySignature at hver ⊢
    cases hd : JsPrim.jsHexDecodeBytes sig with
    | none => rw [hd] at hver
    | some bytes =>
      rw [hd] at hver
      have hbytes : bytes = Sha256.hmacSha256 (JsPrim.utf8Encode secret)
          (JsPrim.utf8Encode payload) := eq_of_beq hver
      apply beq_eq_false_iff_ne.mpr
      intro hcontra
      exact hneq (hcontra.symm.trans hbytes)

/-- C4 witness: the round-trip at a concrete payload and key. -/
theorem c4_sign_verify_witness :
    OauthUtils.verifySignature "k" (OauthUtils.signData "k" "[]") "[]"
      = true :=
  c4_sign_verify.1 "k" "[]" (by decide)

/-- C3 counterexample: a decodable state whose JSON value is null (the
    base64 of "null") makes the destructuring in the /callback route
    throw — a 500-class error response — rather than returning the
    InvalidRequest 4xx the claim asserts for every decodable state
    without a code. -/
theorem c3_callback_null_state_counterexample :
    Handler.getCallback "https://w.example" (some "bnVsbA==") none =
      .thrown ∧
    Handler.CallbackOutcome.thrown ≠
      Handler.CallbackOutcome.badRequest "Invalid state" ∧
    Handler.CallbackOutcome.thrown ≠
      Handler.CallbackOutcome.badRequest
        "No authorization code received from Microsoft" :=
  ⟨rfl, fun h => Handler.CallbackOutcome.noConfusion h,
    fun h => Handler.CallbackOutcome.noConfusion h⟩

/-- C3 amended: for every /callback request whose state decodes to a
    non-null JSON value and which carries no non-empty code parameter,
    the route returns a 400 response (Invalid state, or the
    missing-code message), and never invokes completeAuthorization — so
    no redirect is issued and the token bridge is never called. -/
theorem c3_callback_missing_code :
    ∀ origin s d j codeQ,
      JsPrim.atob s = some d →
      Js.jsonParse d = some j →
      j ≠ Json.null →
      (codeQ = none ∨ codeQ = some "") →
      (Handler.getCallback origin (some s) codeQ =
          .badRequest "Invalid state" ∨
        Handler.getCallback origin (some s) codeQ =
          .badRequest "No authorization code received from Microsoft") ∧
      (∀ args, Handler.getCallback origin (some s) codeQ ≠
        .completed args) := by
  intro origin s d j codeQ hatob hparse hnull hcode
  have hfalsy : JsPrim.truthyStr codeQ = false := by
    rcases hcode with rfl | rfl <;> rfl
  cases j
  case null => exact absurd rfl hnull
  all_goals (
    simp only [Handler.getCallback, hatob, hparse, hfalsy, Bool.not_false,
      if_true]
    refine ⟨?_, ?_⟩
    · (try split) <;> first | exact Or.inl rfl | exact Or.inr rfl
    · intro args
      (try split) <;> simp)

/-- C3 witness: a decodable object state with a clientId but no code
    query parameter produces the missing-code 400; the base64 decodes to
    an object with clientId c1. -/
theorem c3_callback_missing_code_witness :
    (Handler.getCallback "https://w.example"
        (some "eyJjbGllbnRJZCI6ImMxIn0=") none =
          Handler.CallbackOutcome.badRequest "Invalid state" ∨
      Handler.getCallback "https://w.example"
        (some "eyJjbGllbnRJZCI6ImMxIn0=") none =
          Handler.CallbackOutcome.badRequest
            "No authorization code received from Microsoft") ∧
    (∀ args, Handler.getCallback "https://w.example"
        (some "eyJjbGllbnRJZCI6ImMxIn0=") none ≠ .completed args) :=
  c3_callback_missing_code "https://w.example" "eyJjbGllbnRJZCI6ImMxIn0="
    "\x7b\"clientId\":\"c1\"\x7d" (Json.obj [("clientId", Json.str "c1")]) none
    (by rfl) (by rfl) (by simp) (Or.inl rfl)

namespace Js

/-- String-level mirror of the Set-based deduplication, for reasoning
    about approval lists. -/
def dedupStrAux (seen : List String) : List String → List String
  | [] => []
  | x :: xs =>
    if x ∈ seen then dedupStrAux seen xs
    else x :: dedupStrAux (x :: seen) xs

theorem dedupAux_str (seenS l : List String) :
    dedupSVZAux (seenS.map Json.str) (l.map Json.str) =
      (dedupStrAux seenS l).map Json.str := by
  induction l generalizing seenS with
  | nil => rfl
  | cons x xs ih =>
    have hany : (seenS.map Json.str).any
        (fun y => jsonSameValueZero y (Json.str x)) = decide (x ∈ seenS) := by
      by_cases hx : x ∈ seenS
      · rw [decide_eq_true hx]
        exact List.any_eq_true.mpr
          ⟨Json.str x, List.mem_map_of_mem _ hx, by simp [jsonSameValueZero]⟩
      · rw [decide_eq_false hx]
        apply List.any_eq_false.mpr
        intro y hy
        obtain ⟨s, hs, rfl⟩ := List.mem_map.mp hy
        simp only [jsonSameValueZero, beq_eq_false_iff_ne, ne_eq]
        intro he
        exact hx (eq_of_beq he ▸ hs)
    by_cases hx : x ∈ seenS
    · simp [dedupSVZAux, dedupStrAux, hany, hx, ih seenS]
    · have ihx := ih (x :: seenS)
      simp only [List.map_cons] at ihx
      simp [dedupSVZAux, dedupStrAux, hany, hx, ihx]

theorem mem_dedupStrAux (seen l : List String) (x : String) :
    x ∈ dedupStrAux seen l ↔ x ∈ l ∧ x ∉ seen := by
  induction l generalizing seen with
  | nil => simp [dedupStrAux]
  | cons y ys ih =>
    by_cases hy : y ∈ seen
    · simp only [dedupStrAux, if_pos hy, ih seen, List.mem_cons]
      constructor
      · rintro ⟨h1, h2⟩
        exact ⟨Or.inr h1, h2⟩
      · rintro ⟨h1 | h1, h2⟩
        · exact absurd (h1 ▸ hy) h2
        · exact ⟨h1, h2⟩
    · simp only [dedupStrAux, if_neg hy, List.mem_cons, ih (y :: seen),
        List.mem_cons]
      constructor
      · rintro (rfl | ⟨h1, h2⟩)
        · exact ⟨Or.inl rfl, hy⟩
        · exact ⟨Or.inr h1, fun hc => h2 (Or.inr hc)⟩
      · rintro ⟨rfl | h1, h2⟩
        · exact Or.inl rfl
        · by_cases hxy : x = y
          · exact Or.inl hxy
          · exact Or.inr ⟨h1, fun hc => hxy (by
              rcases hc with hc | hc
              · exact hc
              · exact absurd hc h2)⟩

theorem nodup_dedupStrAux (seen l : List String) :
    (dedupStrAux seen l).Nodup := by
  induction l generalizing seen with
  | nil => exact List.nodup_nil
  | cons y ys ih =>
    by_cases hy : y ∈ seen
    · simpa [dedupStrAux, if_pos hy] using ih seen
    · simp only [dedupStrAux, if_neg hy]
      refine List.nodup_cons.mpr ⟨?_, ih (y :: seen)⟩
      intro hc
      exact ((mem_dedupStrAux (y :: seen) ys y).mp hc).2 (List.mem_cons_self y _)

theorem dedupStrAux_append_mem (seen l : List String) (c : String)
    (h : c ∈ l ∨ c ∈ seen) :
    dedupStrAux seen (l ++ [c]) = dedupStrAux seen l := by
  induction l generalizing seen with
  | nil =>
    rcases h with h | h
    · cases h
    · simp [dedupStrAux, h]
  | cons y ys ih =>
    by_cases hy : y ∈ seen
    · simp only [List.cons_append, dedupStrAux, if_pos hy]
      apply ih seen
      rcases h with h | h
      · rcases List.mem_cons.mp h with rfl | h2
        · exact Or.inr hy
        · exact Or.inl h2
      · exact Or.inr h
    · simp only [List.cons_append, dedupStrAux, if_neg hy]
      congr 1
      apply ih (y :: seen)
      rcases h with h | h
      · rcases List.mem_cons.mp h with rfl | h2
        · exact Or.inr (List.mem_cons_self _ _)
        · exact Or.inl h2
      · exact Or.inr (List.mem_cons_of_mem _ h)

theorem dedupStrAux_of_nodup (seen l : List String)
    (hd : l.Nodup) (hs : ∀ x ∈ l, x ∉ seen) :
    dedupStrAux seen l = l := by
  induction l generalizing seen with
  | nil => rfl
  | cons y ys ih =>
    have hy : y ∉ seen := hs y (List.mem_cons_self _ _)
    simp only [dedupStrAux, if_neg hy]
    congr 1
    apply ih (y :: seen) (List.nodup_cons.mp hd).2
    intro x hx
    intro hc
    rcases List.mem_cons.mp hc with rfl | h2
    · exact (List.nodup_cons.mp hd).1 hx
    · exact hs x (List.mem_cons_of_mem _ hx) h2

end Js

/-- The deduplicated approval list parseRedirectApproval signs: prior
    approved ids, in order, with the newly approved id appended unless
    already present. -/
def updatedApproved (S : List String) (cid : String) : List Json :=
  Js.dedupSVZ (S.map Json.str ++ [Json.str cid])

theorem updatedApproved_eq (S : List String) (cid : String) :
    updatedApproved S cid =
      (Js.dedupStrAux [] (S ++ [cid])).map Json.str := by
  unfold updatedApproved Js.dedupSVZ
  rw [show S.map Json.str ++ [Json.str cid] = (S ++ [cid]).map Json.str by
    simp]
  rw [show ([] : List Json) = ([] : List String).map Json.str from rfl]
  exact Js.dedupAux_str [] (S ++ [cid])

/-- C9: a POST approval whose decoded state names client cid, read
    against a prior cookie decoding to the list S (empty when absent or
    invalid), issues a cookie whose payload is the base64 of the JSON
    array of exactly the deduplicated S with cid added, whose signature
    verifies against that payload under the cookie secret, and whose
    attributes are HttpOnly; Secure; Path=/; SameSite=Lax with a
    one-year Max-Age; approving an already-approved client leaves the
    (duplicate-free) approved list unchanged. -/
theorem c9_approval_cookie :
    ∀ fs d state cid cookieHeader secret r,
      secret ≠ "" →
      JsPrim.atob fs = some d →
      Js.jsonParse d = some state →
      Js.optGet (Js.objGet state "oauthReqInfo") "clientId"
        = some (Json.str cid) →
      cid ≠ "" →
      OauthUtils.getApprovedClientsFromCookie cookieHeader secret = .ok r →
      (∀ c ∈ (Js.jsonStringify
          (Json.arr (updatedApproved (r.getD []) cid))).data,
        c.toNat < 256) →
      ∃ b64,
        JsPrim.btoa (Js.jsonStringify
          (Json.arr (updatedApproved (r.getD []) cid))) = some b64 ∧
        OauthUtils.parseRedirectApproval "POST" (some fs) cookieHeader secret
          = .ok ⟨state, OauthUtils.COOKIE_NAME ++ "=" ++
              OauthUtils.signData secret (Js.jsonStringify
                (Json.arr (updatedApproved (r.getD []) cid))) ++ "." ++ b64 ++
              "; HttpOnly; Secure; Path=/; SameSite=Lax; Max-Age=" ++
              toString OauthUtils.ONE_YEAR_IN_SECONDS⟩ ∧
        JsPrim.atob b64 = some (Js.jsonStringify
          (Json.arr (updatedApproved (r.getD []) cid))) ∧
        OauthUtils.verifySignature secret
          (OauthUtils.signData secret (Js.jsonStringify
            (Json.arr (updatedApproved (r.getD []) cid))))
          (Js.jsonStringify (Json.arr (updatedApproved (r.getD []) cid)))
          = true ∧
        (∀ x, Json.str x ∈ updatedApproved (r.getD []) cid ↔
          (x ∈ r.getD [] ∨ x = cid)) ∧
        (updatedApproved (r.getD []) cid).Nodup ∧
        (cid ∈ r.getD [] → (r.getD []).Nodup →
          updatedApproved (r.getD []) cid = (r.getD []).map Json.str) := by
  intro fs d state cid cookieHeader secret r hsec hatob hparse hcid hcidne hr
    hlat
  have hfs : fs ≠ "" := by
    intro he
    subst he
    rw [show JsPrim.atob "" = some "" from rfl] at hatob
    injection hatob with hd
    rw [← hd] at hparse
    rw [show Js.jsonParse "" = none from rfl] at hparse
    cases hparse
  have htruthy : Js.jsTruthy (Json.str cid) = true := by
    simp [Js.jsTruthy, hcidne]
  have hall : (Js.jsonStringify
      (Json.arr (updatedApproved (r.getD []) cid))).data.all
      (fun c => decide (c.toNat < 256)) = true :=
    List.all_eq_true.mpr (fun c hc => decide_eq_true (hlat c hc))
  have hbtoa : JsPrim.btoa (Js.jsonStringify
      (Json.arr (updatedApproved (r.getD []) cid))) =
      some (JsPrim.btoaBytes ((Js.jsonStringify
        (Json.arr (updatedApproved (r.getD []) cid))).data.map Char.toNat))
      := by
    unfold JsPrim.btoa
    rw [if_pos hall]
  have hinj : Function.Injective Json.str := fun a b h => by injection h
  refine ⟨_, hbtoa, ?_, JsPrim.atob_btoa hlat hbtoa,
    OauthUtils.verify_signData secret _, ?_, ?_, ?_⟩
  · simp only [updatedApproved] at hbtoa ⊢
    simp [OauthUtils.parseRedirectApproval, hatob, hparse, hcid, htruthy, hr,
      hfs, hsec, hbtoa]
  · intro x
    rw [updatedApproved_eq]
    constructor
    · intro hx
      obtain ⟨y, hy, he⟩ := List.mem_map.mp hx
      obtain rfl := hinj he
      have hmem := (Js.mem_dedupStrAux [] _ _).mp hy
      rcases List.mem_append.mp hmem.1 with h1 | h1
      · exact Or.inl h1
      · exact Or.inr (by simpa using h1)
    · intro hx
      apply List.mem_map_of_mem
      apply (Js.mem_dedupStrAux [] _ x).mpr
      refine ⟨List.mem_append.mpr ?_, by simp⟩
      rcases hx with h1 | rfl
      · exact Or.inl h1
      · exact Or.inr (by simp)
  · rw [updatedApproved_eq]
    exact (Js.nodup_dedupStrAux [] _).map hinj
  · intro hmem hnodup
    rw [updatedApproved_eq]
    rw [Js.dedupStrAux_append_mem [] _ cid (Or.inl hmem)]
    rw [Js.dedupStrAux_of_nodup [] _ hnodup (by simp)]

/-- C9 witness: a first approval for client newclient with no prior
    cookie signs the one-element list. -/
theorem c9_approval_cookie_witness :
    ∃ b64,
      JsPrim.btoa (Js.jsonStringify
        (Json.arr (updatedApproved [] "newclient"))) = some b64 ∧
      OauthUtils.parseRedirectApproval "POST"
        (some "eyJvYXV0aFJlcUluZm8iOnsiY2xpZW50SWQiOiJuZXdjbGllbnQifX0=")
        none "test-secret"
        = .ok ⟨Json.obj [("oauthReqInfo",
              Json.obj [("clientId", Json.str "newclient")])],
            OauthUtils.COOKIE_NAME ++ "=" ++
            OauthUtils.signData "test-secret" (Js.jsonStringify
              (Json.arr (updatedApproved [] "newclient"))) ++ "." ++ b64 ++
            "; HttpOnly; Secure; Path=/; SameSite=Lax; Max-Age=" ++
            toString OauthUtils.ONE_YEAR_IN_SECONDS⟩ ∧
      JsPrim.atob b64 = some (Js.jsonStringify
        (Json.arr (updatedApproved [] "newclient"))) ∧
      OauthUtils.verifySignature "test-secret"
        (OauthUtils.signData "test-secret" (Js.jsonStringify
          (Json.arr (updatedApproved [] "newclient"))))
        (Js.jsonStringify (Json.arr (updatedApproved [] "newclient")))
        = true ∧
      (∀ x, Json.str x ∈ updatedApproved [] "newclient" ↔
        (x ∈ ([] : List String) ∨ x = "newclient")) ∧
      (updatedApproved [] "newclient").Nodup ∧
      ("newclient" ∈ ([] : List String) → ([] : List String).Nodup →
        updatedApproved [] "newclient" =
          ([] : List String).map Json.str) :=
  c9_approval_cookie
    "eyJvYXV0aFJlcUluZm8iOnsiY2xpZW50SWQiOiJuZXdjbGllbnQifX0="
    "\x7b\"oauthReqInfo\":\x7b\"clientId\":\"newclient\"\x7d\x7d"
    (Json.obj [("oauthReqInfo", Json.obj [("clientId", Json.str "newclient")])])
    "newclient" none "test-secret" none
    (by decide) (by rfl) (by rfl) (by rfl) (by decide) (by rfl) (by decide)

namespace Js

theorem lookup_objSetField_self (f : List (String × Json)) (k : String)
    (v : Json) : List.lookup k (objSetField f k v) = some v := by
  induction f with
  | nil => simp [objSetField, List.lookup]
  | cons p rest ih =>
    by_cases hk : p.1 = k
    · simp [objSetField, hk, List.lookup]
    · simp only [objSetField]
      rw [if_neg (by exact hk)]
      simp only [List.lookup]
      rw [show (k == p.1) = false from beq_eq_false_iff_ne.mpr (Ne.symm hk)]
      exact ih

theorem objGet_objSet_self (f : List (String × Json)) (k : String)
    (v : Json) : objGet (objSet (Json.obj f) k v) k = some v := by
  simp only [objSet, objGet]
  exact lookup_objSetField_self f k v

theorem lookup_objSetField_ne (f : List (String × Json)) (k k2 : String)
    (v : Json) (h : k2 ≠ k) :
    List.lookup k2 (objSetField f k v) = List.lookup k2 f := by
  induction f with
  | nil =>
    simp only [objSetField, List.lookup]
    rw [show (k2 == k) = false from beq_eq_false_iff_ne.mpr h]
  | cons p rest ih =>
    by_cases hk : p.1 = k
    · simp only [objSetField, if_pos hk, List.lookup]
      rcases p with ⟨k0, v0⟩
      simp only at hk
      subst hk
      rw [show (k2 == k0) = false from beq_eq_false_iff_ne.mpr h]
    · simp only [objSetField, if_neg hk, List.lookup]
      by_cases hq : k2 = p.1
      · rw [show (k2 == p.1) = true from beq_iff_eq.mpr hq]
      · rw [show (k2 == p.1) = false from beq_eq_false_iff_ne.mpr hq]
        exact ih

theorem objGet_objSet_ne (j : Json) (k k2 : String) (v : Json)
    (h : k2 ≠ k) : objGet (objSet j k v) k2 = objGet j k2 := by
  cases j with
  | obj f => exact lookup_objSetField_ne f k k2 v h
  | null => rfl
  | bool b => rfl
  | num m e => rfl
  | str s => rfl
  | arr l => rfl

end Js

namespace Handler

theorem strSplit3 (P A B enc d C : String) :
    ∃ p m, P ++ (A ++ B) ++ enc ++ (d ++ C) = p ++ (B ++ enc ++ d) ++ m :=
  ⟨P ++ A, C, by simp only [String.append_assoc]⟩

theorem strSplitSnd (L0 cn R : String) :
    ∃ p m, L0 ++ (cn ++ R) = p ++ (cn ++ m) := ⟨L0, R, rfl⟩

/-- The rendered dialog always embeds the encoded state in the hidden
    form input and shows the client display name. -/
theorem approvalDialogHtml_decomp (cn sn sd lg cu pu tu ct : String)
    (ru : List String) (enc ap : String) :
    (∃ p m, approvalDialogHtml cn sn sd lg cu pu tu ct ru enc ap =
      p ++ ("<input type=\"hidden\" name=\"state\" value=\"" ++ enc ++ "\">") ++ m) ∧
    (∃ p m, approvalDialogHtml cn sn sd lg cu pu tu ct ru enc ap =
      p ++ (cn ++ m)) := by
  have hLk : "\">
              <input type=\"hidden\" name=\"state\" value=\"" = "\">
              " ++ "<input type=\"hidden\" name=\"state\" value=\"" := rfl
  have hL2 : "\">
              
              <div class=\"actions\">
                <button type=\"button\" class=\"button button-secondary\" onclick=\"window.history.back()\">Cancel</button>
                <button type=\"submit\" class=\"button button-primary\">Approve</button>
              </div>
            </form>
          </div>
        </div>
      </body>
    </html>
  " = "\">" ++ "
              
              <div class=\"actions\">
                <button type=\"button\" class=\"button button-secondary\" onclick=\"window.history.back()\">Cancel</button>
                <button type=\"submit\" class=\"button button-primary\">Approve</button>
              </div>
            </form>
          </div>
        </div>
      </body>
    </html>
  " := rfl
  constructor
  · simp only [approvalDialogHtml]
    rw [hLk, hL2]
    apply strSplit3
  · simp only [approvalDialogHtml, String.append_assoc]
    apply strSplitSnd

end Handler

namespace Handler

theorem ctChoice (b : Bool) :
    (if b = true then "mcp-remote" else "web-connector") = "mcp-remote" ∨
    (if b = true then "mcp-remote" else "web-connector") = "web-connector" := by
  cases b <;> simp

set_option maxRecDepth 8000 in
/-- A successful redirectToMicrosoft call targets the tenant authorize
    endpoint, carrying the requested headers and a state that is the
    base64 JSON of the request tagged with one of the two client types. -/
theorem redirectToMicrosoft_spec (origin : String) (oauthReqInfo : Json)
    (env : Env) (headers : List (String × String)) (r : RedirectResponse)
    (h : redirectToMicrosoft origin oauthReqInfo env headers = some r) :
    ∃ ct st, (ct = "mcp-remote" ∨ ct = "web-connector") ∧
      JsPrim.btoa (Js.jsonStringify
        (Js.objSet oauthReqInfo "clientType" (Json.str ct))) = some st ∧
      r = ⟨getUpstreamAuthorizeUrl env.MICROSOFT_CLIENT_ID
          (origin ++ "/callback") authScope st
          ("https://login.microsoftonline.com/" ++ env.MICROSOFT_TENANT_ID
            ++ "/oauth2/v2.0/authorize"), headers, 302⟩ := by
  unfold redirectToMicrosoft at h
  split at h
  · simp only [] at h
    split at h
    · exact Option.noConfusion h
    · rename_i st hb
      refine ⟨_, st, ctChoice _, hb, ?_⟩
      injection h with h2
      exact h2.symm
  · simp only [] at h
    split at h
    · exact Option.noConfusion h
    · rename_i st hb
      refine ⟨_, st, ctChoice _, hb, ?_⟩
      injection h with h2
      exact h2.symm
  · simp only [] at h
    split at h
    · exact Option.noConfusion h
    · rename_i st hb
      refine ⟨_, st, ctChoice _, hb, ?_⟩
      injection h with h2
      exact h2.symm
  · simp only [] at h
    split at h
    · exact Option.noConfusion h
    · rename_i st hb
      refine ⟨_, st, ctChoice _, hb, ?_⟩
      injection h with h2
      exact h2.symm
  · simp only [] at h
    exact Option.noConfusion h

/-- When the state encodes, renderApprovalDialog yields a page carrying
    the encoded state in the hidden input and the client display name. -/
theorem renderApprovalDialog_spec (actionPath : String)
    (client : Option ClientInfo) (sname sdesc slogo : String) (state : Json)
    (encState : String)
    (hb : JsPrim.btoa (Js.jsonStringify state) = some encState) :
    ∃ html, renderApprovalDialog actionPath client sname sdesc slogo state
        = some html ∧
      (∃ p m, html = p ++ ("<input type=\"hidden\" name=\"state\" value=\""
        ++ encState ++ "\">") ++ m) ∧
      (∃ p m, html = p ++ (clientNameOf client ++ m)) := by
  unfold renderApprovalDialog
  rw [hb]
  exact ⟨_, rfl, (approvalDialogHtml_decomp _ _ _ _ _ _ _ _ _ _ _).1,
    (approvalDialogHtml_decomp _ _ _ _ _ _ _ _ _ _ _).2⟩

end Handler

/-- C8 (amended): on GET /authorize with a truthy clientId, (A) a cookie
    already approving the client makes the handler redirect straight to
    the tenant authorize endpoint on login.microsoftonline.com, the
    state being the base64 JSON of the authorization request tagged with
    a clientType, with no consent page; (B) when the cookie does not
    approve the client, the handler renders a consent page that embeds
    base64(JSON of the wrapped request) in the hidden state input and
    shows the client display name (the registered name or a fallback
    label, not the client id); (C) a POSTed approval redirects to the
    same upstream authorize endpoint with the fresh approval Set-Cookie,
    the state being the base64 JSON of the original request object with
    every original field (its OAuth state included) preserved and a
    clientType tag added. -/
theorem c8_authorize_flow :
    (∀ origin oauthReqInfo client cookieHeader env r,
      Handler.clientIdAlreadyApprovedJ cookieHeader
        (Js.objGet oauthReqInfo "clientId") env.COOKIE_ENCRYPTION_KEY
        = .ok true →
      Handler.redirectToMicrosoft origin oauthReqInfo env [] = some r →
      Handler.getAuthorize origin oauthReqInfo client cookieHeader env
        = .redirect r ∧
      ∃ ct st, (ct = "mcp-remote" ∨ ct = "web-connector") ∧
        JsPrim.btoa (Js.jsonStringify
          (Js.objSet oauthReqInfo "clientType" (Json.str ct))) = some st ∧
        r = ⟨Handler.getUpstreamAuthorizeUrl env.MICROSOFT_CLIENT_ID
            (origin ++ "/callback") Handler.authScope st
            ("https://login.microsoftonline.com/" ++ env.MICROSOFT_TENANT_ID
              ++ "/oauth2/v2.0/authorize"), [], 302⟩) ∧
    (∀ origin oauthReqInfo client cookieHeader env encState,
      Js.jsTruthyOpt (Js.objGet oauthReqInfo "clientId") = true →
      Handler.clientIdAlreadyApprovedJ cookieHeader
        (Js.objGet oauthReqInfo "clientId") env.COOKIE_ENCRYPTION_KEY
        = .ok false →
      JsPrim.btoa (Js.jsonStringify
        (Json.obj [("oauthReqInfo", oauthReqInfo)])) = some encState →
      ∃ html,
        Handler.getAuthorize origin oauthReqInfo client cookieHeader env
          = .consent html ∧
        (∃ p m, html = p ++ ("<input type=\"hidden\" name=\"state\" value=\""
          ++ encState ++ "\">") ++ m) ∧
        (∃ p m, html = p ++ (Handler.clientNameOf client ++ m))) ∧
    (∀ origin formState cookieHeader env res ori fields r,
      OauthUtils.parseRedirectApproval "POST" formState cookieHeader
        env.COOKIE_ENCRYPTION_KEY = .ok res →
      Js.objGet res.state "oauthReqInfo" = some ori →
      Js.jsTruthy ori = true →
      ori = Json.obj fields →
      Handler.redirectToMicrosoft origin ori env
        [("Set-Cookie", res.setCookie)] = some r →
      Handler.postAuthorize origin "POST" formState cookieHeader env
        = .redirect r ∧
      ∃ ct st, (ct = "mcp-remote" ∨ ct = "web-connector") ∧
        JsPrim.btoa (Js.jsonStringify
          (Js.objSet ori "clientType" (Json.str ct))) = some st ∧
        Js.objGet (Js.objSet ori "clientType" (Json.str ct)) "clientType"
          = some (Json.str ct) ∧
        (∀ k, k ≠ "clientType" →
          Js.objGet (Js.objSet ori "clientType" (Json.str ct)) k
            = Js.objGet ori k) ∧
        r = ⟨Handler.getUpstreamAuthorizeUrl env.MICROSOFT_CLIENT_ID
            (origin ++ "/callback") Handler.authScope st
            ("https://login.microsoftonline.com/" ++ env.MICROSOFT_TENANT_ID
              ++ "/oauth2/v2.0/authorize"),
            [("Set-Cookie", res.setCookie)], 302⟩) := by
  refine ⟨?_, ?_, ?_⟩
  · intro origin oauthReqInfo client cookieHeader env r happr hred
    have htru : Js.jsTruthyOpt (Js.objGet oauthReqInfo "clientId") = true := by
      cases hb : Js.jsTruthyOpt (Js.objGet oauthReqInfo "clientId") with
      | true => rfl
      | false =>
        exfalso
        unfold Handler.clientIdAlreadyApprovedJ at happr
        rw [hb] at happr
        simp at happr
    refine ⟨?_, Handler.redirectToMicrosoft_spec _ _ _ _ _ hred⟩
    simp [Handler.getAuthorize, htru, happr, hred]
  · intro origin oauthReqInfo client cookieHeader env encState htru happr hb64
    obtain ⟨html, hrend, h1, h2⟩ :=
      Handler.renderApprovalDialog_spec "/authorize" client Handler.serverName0
        Handler.serverDescription0 Handler.serverLogo0
        (Json.obj [("oauthReqInfo", oauthReqInfo)]) encState hb64
    refine ⟨html, ?_, h1, h2⟩
    simp [Handler.getAuthorize, htru, happr, hrend]
  · intro origin formState cookieHeader env res ori fields r hparse hori htruo
      hfields hred
    obtain ⟨ct, st, hct, hb, hr⟩ :=
      Handler.redirectToMicrosoft_spec _ _ _ _ _ hred
    refine ⟨?_, ct, st, hct, hb, ?_, ?_, hr⟩
    · simp [Handler.postAuthorize, hparse, hori, htruo, hred]
    · rw [hfields]
      exact Js.objGet_objSet_self fields "clientType" (Json.str ct)
    · intro k hk
      exact Js.objGet_objSet_ne ori "clientType" k (Json.str ct) hk

/-- Field list of a concrete authorization request for client
    client-7xq. -/
def c8Fields : List (String × Json) :=
  [("clientId", Json.str "client-7xq"),
   ("redirectUri", Json.str "https://cb.example/cb"),
   ("scope", Json.str "S"),
   ("responseType", Json.str "code"),
   ("state", Json.str "X1")]

def c8OauthReq : Json := Json.obj c8Fields

/-- A registered client whose display name is Example Application. -/
def c8Client : Handler.ClientInfo :=
  ⟨some "Example Application", none, none, none, none, none⟩

def c8Env : Handler.Env := ⟨"mscid", "tenant", "mssecret", "cookiekey"⟩

/-- A cookie header that validly approves client-7xq under the key
    cookiekey. -/
def c8CookieA : String :=
  OauthUtils.COOKIE_NAME ++ "=" ++
    OauthUtils.signData "cookiekey" "[\"client-7xq\"]" ++ "." ++
    (JsPrim.btoa "[\"client-7xq\"]").getD ""

def c8RedirectA : Handler.RedirectResponse :=
  (Handler.redirectToMicrosoft "https://w.example" c8OauthReq c8Env []).getD
    ⟨"", [], 0⟩

/-- The base64 JSON of the wrapped request, as the consent page embeds
    it and as the approval form posts it back. -/
def c8EncState : String :=
  (JsPrim.btoa (Js.jsonStringify (Json.obj [("oauthReqInfo", c8OauthReq)]))).getD ""

def c8Res : OauthUtils.ParsedApprovalResult :=
  match OauthUtils.parseRedirectApproval "POST" (some c8EncState) none
      c8Env.COOKIE_ENCRYPTION_KEY with
  | .ok r => r
  | .error _ => ⟨Json.null, ""⟩

def c8RedirectC : Handler.RedirectResponse :=
  (Handler.redirectToMicrosoft "https://w.example" c8OauthReq c8Env
    [("Set-Cookie", c8Res.setCookie)]).getD ⟨"", [], 0⟩

def c8ConsentHtml : String :=
  match Handler.getAuthorize "https://w.example" c8OauthReq (some c8Client)
      none c8Env with
  | Handler.AuthorizeOutcome.consent h => h
  | _ => ""

/-- Substring search: some position of the character list starts the
    needle (the spec's notion of one string containing another). -/
def containsAux (needle : List Char) : List Char → Bool
  | [] => needle.isEmpty
  | c :: rest => needle.isPrefixOf (c :: rest) || containsAux needle rest

/-- containsAux cut off after k start positions. -/
def scanK (needle : List Char) : Nat → List Char → Bool
  | 0, _ => false
  | _ + 1, [] => false
  | k + 1, c :: rest => needle.isPrefixOf (c :: rest) || scanK needle k rest

theorem containsAux_chunk (needle : List Char) (k : Nat) (l : List Char) :
    containsAux needle l
      = (scanK needle k l || containsAux needle (List.drop k l)) := by
  induction k generalizing l with
  | zero => simp [scanK, List.drop]
  | succ k ih =>
    cases l with
    | nil => simp [scanK, containsAux, List.drop]
    | cons c rest =>
      simp only [scanK, containsAux, List.drop, ih rest, Bool.or_assoc]

theorem containsAux_iff (needle l : List Char) :
    containsAux needle l = true ↔ needle <:+: l := by
  induction l with
  | nil =>
    simp [containsAux, List.isEmpty_iff, List.infix_nil]
  | cons c rest ih =>
    simp [containsAux, Bool.or_eq_true, ih, List.isPrefixOf_iff_prefix,
      List.infix_cons_iff]

set_option maxRecDepth 40000 in
set_option maxHeartbeats 16000000 in
theorem c8ScanNeg :
    containsAux "client-7xq".data c8ConsentHtml.data = false := by
  have s0 : scanK "client-7xq".data 1500 c8ConsentHtml.data = false := by
    decide
  have s1 : scanK "client-7xq".data 1500
      (List.drop 1500 c8ConsentHtml.data) = false := by decide
  have s2 : scanK "client-7xq".data 1500
      (List.drop 1500 (List.drop 1500 c8ConsentHtml.data)) = false := by
    decide
  have s3 : scanK "client-7xq".data 1500
      (List.drop 1500 (List.drop 1500 (List.drop 1500 c8ConsentHtml.data)))
      = false := by decide
  have s4 : containsAux "client-7xq".data
      (List.drop 1500 (List.drop 1500 (List.drop 1500
        (List.drop 1500 c8ConsentHtml.data)))) = false := by decide
  calc containsAux "client-7xq".data c8ConsentHtml.data
      = _ := containsAux_chunk "client-7xq".data 1500 c8ConsentHtml.data
    _ = containsAux "client-7xq".data (List.drop 1500 c8ConsentHtml.data) :=
      by rw [s0, Bool.false_or]
    _ = _ := containsAux_chunk "client-7xq".data 1500 _
    _ = containsAux "client-7xq".data
        (List.drop 1500 (List.drop 1500 c8ConsentHtml.data)) :=
      by rw [s1, Bool.false_or]
    _ = _ := containsAux_chunk "client-7xq".data 1500 _
    _ = containsAux "client-7xq".data
        (List.drop 1500 (List.drop 1500 (List.drop 1500 c8ConsentHtml.data)))
      := by rw [s2, Bool.false_or]
    _ = _ := containsAux_chunk "client-7xq".data 1500 _
    _ = containsAux "client-7xq".data
        (List.drop 1500 (List.drop 1500 (List.drop 1500
          (List.drop 1500 c8ConsentHtml.data)))) :=
      by rw [s3, Bool.false_or]
    _ = false := s4

set_option maxRecDepth 40000 in
set_option maxHeartbeats 16000000 in
theorem c8ScanPos :
    containsAux "Example Application".data c8ConsentHtml.data = true := by
  have p0 : scanK "Example Application".data 1500 c8ConsentHtml.data = true
    := by decide
  rw [containsAux_chunk "Example Application".data 1500, p0, Bool.true_or]

/-- C8 counterexample: the consent page rendered for the authorization
    request of client id client-7xq, registered under the display name
    Example Application, contains the display name but nowhere the
    client identifier, against the spec's consent page that contains
    the client identifier. -/
theorem c8_consent_lacks_client_id :
    Handler.getAuthorize "https://w.example" c8OauthReq (some c8Client) none
        c8Env = Handler.AuthorizeOutcome.consent c8ConsentHtml ∧
    ¬ ("client-7xq".data <:+: c8ConsentHtml.data) ∧
    ("Example Application".data <:+: c8ConsentHtml.data) := by
  refine ⟨by unfold c8ConsentHtml; rfl, ?_,
    (containsAux_iff "Example Application".data c8ConsentHtml.data).mp
      c8ScanPos⟩
  intro h
  exact Bool.false_ne_true (c8ScanNeg.symm.trans
    ((containsAux_iff "client-7xq".data c8ConsentHtml.data).mpr h))
set_option maxRecDepth 300000 in
set_option maxHeartbeats 16000000 in
/-- C8 witness: for the client-7xq request, (A) a validly signed cookie
    listing client-7xq sends GET /authorize straight to the Microsoft
    authorize URL; (B) with no cookie the consent page embeds the
    encoded request and shows Example Application; (C) posting the
    approval form redirects to Microsoft with the new cookie. -/
theorem c8_authorize_flow_witness :
    (Handler.getAuthorize "https://w.example" c8OauthReq (some c8Client)
        (some c8CookieA) c8Env = .redirect c8RedirectA ∧
      ∃ ct st, (ct = "mcp-remote" ∨ ct = "web-connector") ∧
        JsPrim.btoa (Js.jsonStringify
          (Js.objSet c8OauthReq "clientType" (Json.str ct))) = some st ∧
        c8RedirectA = ⟨Handler.getUpstreamAuthorizeUrl
            c8Env.MICROSOFT_CLIENT_ID ("https://w.example" ++ "/callback")
            Handler.authScope st
            ("https://login.microsoftonline.com/" ++ c8Env.MICROSOFT_TENANT_ID
              ++ "/oauth2/v2.0/authorize"), [], 302⟩) ∧
    (∃ html,
      Handler.getAuthorize "https://w.example" c8OauthReq (some c8Client)
          none c8Env = .consent html ∧
      (∃ p m, html = p ++ ("<input type=\"hidden\" name=\"state\" value=\""
        ++ c8EncState ++ "\">") ++ m) ∧
      (∃ p m, html = p ++ (Handler.clientNameOf (some c8Client) ++ m))) ∧
    (Handler.postAuthorize "https://w.example" "POST" (some c8EncState) none
        c8Env = .redirect c8RedirectC ∧
      ∃ ct st, (ct = "mcp-remote" ∨ ct = "web-connector") ∧
        JsPrim.btoa (Js.jsonStringify
          (Js.objSet c8OauthReq "clientType" (Json.str ct))) = some st ∧
        Js.objGet (Js.objSet c8OauthReq "clientType" (Json.str ct))
          "clientType" = some (Json.str ct) ∧
        (∀ k, k ≠ "clientType" →
          Js.objGet (Js.objSet c8OauthReq "clientType" (Json.str ct)) k
            = Js.objGet c8OauthReq k) ∧
        c8RedirectC = ⟨Handler.getUpstreamAuthorizeUrl
            c8Env.MICROSOFT_CLIENT_ID ("https://w.example" ++ "/callback")
            Handler.authScope st
            ("https://login.microsoftonline.com/" ++ c8Env.MICROSOFT_TENANT_ID
              ++ "/oauth2/v2.0/authorize"),
            [("Set-Cookie", c8Res.setCookie)], 302⟩) :=
  ⟨c8_authorize_flow.1 "https://w.example" c8OauthReq (some c8Client)
      (some c8CookieA) c8Env c8RedirectA (by rfl) (by rfl),
   c8_authorize_flow.2.1 "https://w.example" c8OauthReq (some c8Client) none
      c8Env c8EncState (by rfl) (by rfl) (by rfl),
   c8_authorize_flow.2.2 "https://w.example" (some c8EncState) none c8Env
      c8Res c8OauthReq c8Fields c8RedirectC (by rfl) (by rfl) (by rfl) rfl
      (by rfl)⟩
